import Mathlib

/-!
Verification of the ltouwrap tape-drive wrapper (ltouwrap.go).

The Go code shells out to external utilities (mt, sg_logs, sg_read_attr)
and parses their text output.  We embed it shallowly: the external world
is a state-passing oracle (`World`) that answers each process invocation
with combined output and an optional error; every operation additionally
returns the list of invocations it performed, so that claims about what
gets invoked (and under which context) are expressible.  Go errors are
modelled as a tree (`GoError`) mirroring errors.New, fmt.Errorf with two
%w verbs, and errors.Join.  Go strings/strconv functions used by the
source are modelled over `List Char`.
-/

namespace Ltouwrap

/-! ## Go error values -/

/-- Errors produced by strconv parsing: malformed-number errors and range
errors. -/
inductive NumErr where
  | bad : NumErr
  | outOfRange : NumErr
  deriving DecidableEq, Repr

/-- Go error trees: `base` is errors.New; `wrap` is fmt.Errorf with two %w
verbs; `join1`/`join2` are errors.Join applied to one / two non-nil
errors; `exitErr` is an exec.ExitError; `numErr` a strconv error;
`foreign` any other error from the outside world. -/
inductive GoError where
  | base (msg : String)
  | wrap (outer inner : GoError)
  | join1 (e : GoError)
  | join2 (a b : GoError)
  | exitErr (code : Nat)
  | numErr (e : NumErr)
  | foreign (id : Nat)
  deriving DecidableEq, Repr

/-- errors.Join of two optional errors: nils are dropped, the rest are
collected into a fresh join node (Go wraps even a single non-nil error). -/
def goJoin : Option GoError → Option GoError → Option GoError
  | none, none => none
  | some x, none => some (.join1 x)
  | none, some y => some (.join1 y)
  | some x, some y => some (.join2 x y)

/-- errors.As with target *exec.ExitError: the chain contains an exit error. -/
def isExitError : GoError → Bool
  | .exitErr _ => true
  | .wrap a b => isExitError a || isExitError b
  | .join1 e => isExitError e
  | .join2 a b => isExitError a || isExitError b
  | _ => false

/-- errors.Is-like containment: the chain contains the given error value. -/
def errContains (t : GoError) : GoError → Bool
  | .wrap a b => (.wrap a b : GoError) = t || errContains t a || errContains t b
  | .join1 e => (.join1 e : GoError) = t || errContains t e
  | .join2 a b => (.join2 a b : GoError) = t || errContains t a || errContains t b
  | e => e = t

/-! ## Sentinel errors of ltouwrap.go -/

def ErrCanNotStatTheDevice : GoError := .base "can not stat specified device file"
def ErrNoRewindRequired : GoError := .base "a no rewind tape device is required"
def ErrUnsupportedPlatform : GoError := .base "this os is not supported"
def ErrDeviceCheckFailed : GoError := .base "device check failed"
def ErrNoMtDiscovered : GoError := .base "can not find mt"
def ErrNoSgLogsDiscovered : GoError := .base "can not find sg_logs"
def ErrNoSgReadAttrDiscovered : GoError := .base "can not find sg_read_attr"
def ErrSgLogsExecFailed : GoError := .base "failed to get sg_logs cmd output"
def ErrSgReadAttrExecFailed : GoError := .base "failed to get sg_read_attr cmd output"
def ErrCanNotParseSgReadAttrOutput : GoError := .base "can not parse output of sg_read_attr"
def ErrAttrParseFailed : GoError := .base "failed to parse output of sg_read_attr"
def ErrSomeMtRelatedFieldsMissing : GoError := .base "some mt related fields missing"
def ErrSomeSgRelatedFieldsMissing : GoError := .base "some sg_* related fields missing"
def ErrSomeCapacityLogFieldsMissing : GoError := .base "some capacity log fields missing"
def ErrCanNotParseMainPartitionRemaining : GoError := .base "can not parse main partition remaining capacity"
def ErrCanNotParseAlternatePartitionRemaining : GoError := .base "can not parse alternate partition remaining capacity"
def ErrCanNotParseMainPartitionMax : GoError := .base "can not parse main partition maximum capacity"
def ErrCanNotParseAlternatePartitionMax : GoError := .base "can not parse alternate partition maximum capacity"
def ErrNoDataCartridgeOrNotReady : GoError := .base "no data cartridge or not ready yet"
def ErrCanNotRewind : GoError := .base "can not rewind the tape"
def ErrMtExecFailed : GoError := .base "failed to get mt cmd output"
def ErrMtOutputParseFailed : GoError := .base "can not parse output of mt"
def ErrCanNotGoToPrevFile : GoError := .base "can not go to previous file"
def ErrCanNotGetMediumSN : GoError := .base "can not get medium serial number"

/-! ## Go string helpers (strings.TrimSpace, Split, Fields, ...) -/

/-- unicode.IsSpace for the code points relevant here (Latin-1 range). -/
def goSpace (c : Char) : Bool :=
  c = ' ' || c = '\t' || c = '\n' || c = Char.ofNat 11 || c = Char.ofNat 12 ||
  c = '\r' || c = Char.ofNat 0x85 || c = Char.ofNat 0xA0

/-- strings.TrimSpace. -/
def trimSpace (l : List Char) : List Char :=
  ((l.dropWhile goSpace).reverse.dropWhile goSpace).reverse

/-- Auxiliary accumulator loop for `splitCh`. -/
def splitChAux (c : Char) : List Char → List Char → List (List Char)
  | [], acc => [acc.reverse]
  | x :: xs, acc =>
      if x = c then acc.reverse :: splitChAux c xs []
      else splitChAux c xs (x :: acc)

/-- strings.Split with a one-character separator; never returns []. -/
def splitCh (c : Char) (l : List Char) : List (List Char) :=
  splitChAux c l []

/-- Auxiliary accumulator loop for `goFields`. -/
def goFieldsAux : List Char → List Char → List (List Char)
  | [], cur => if cur.isEmpty then [] else [cur.reverse]
  | x :: xs, cur =>
      if goSpace x then
        if cur.isEmpty then goFieldsAux xs [] else cur.reverse :: goFieldsAux xs []
      else goFieldsAux xs (x :: cur)

/-- strings.Fields: whitespace-separated words, empties dropped. -/
def goFields (l : List Char) : List (List Char) :=
  goFieldsAux l []

/-- strings.HasPrefix (the second argument is the pattern). -/
def goStartsWith : List Char → List Char → Bool
  | _, [] => true
  | [], _ :: _ => false
  | x :: xs, p :: ps => x = p && goStartsWith xs ps

/-! ## strconv.ParseUint / ParseInt, base 0, bitSize 64 -/

/-- Go strconv's lower(c) = c | 0x20. -/
def lowerC (c : Char) : Char := Char.ofNat (c.toNat ||| 0x20)

/-- Digit value of a character, per strconv (0-9, then letters from 10). -/
def digitVal (c : Char) : Option Nat :=
  if '0' ≤ c ∧ c ≤ '9' then some (c.toNat - '0'.toNat)
  else if 'a' ≤ lowerC c ∧ lowerC c ≤ 'z' then some ((lowerC c).toNat - 'a'.toNat + 10)
  else none

/-- The digit-consuming loop of strconv.ParseUint.  In base-0 mode
underscores are skipped here and validated afterwards. -/
def parseDigits (base0 : Bool) (b maxVal : Nat) : List Char → Nat → Except NumErr Nat
  | [], n => .ok n
  | c :: cs, n =>
      if c = '_' ∧ base0 then parseDigits base0 b maxVal cs n
      else
        match digitVal c with
        | none => .error .bad
        | some d =>
            if b ≤ d then .error .bad
            else if maxVal < n * b + d then .error .outOfRange
            else parseDigits base0 b maxVal cs (n * b + d)

/-- The scanning loop of strconv's underscoreOK. -/
def underscoreLoop (hex : Bool) : Char → List Char → Bool
  | saw, [] => saw ≠ '_'
  | saw, c :: rest =>
      if ('0' ≤ c ∧ c ≤ '9') ∨ (hex ∧ 'a' ≤ lowerC c ∧ lowerC c ≤ 'f') then
        underscoreLoop hex '0' rest
      else if c = '_' then
        if saw ≠ '0' then false else underscoreLoop hex '_' rest
      else if saw = '_' then false
      else underscoreLoop hex '!' rest

/-- strconv's underscoreOK: underscores must separate digits, or sit
between a base marker and a digit. -/
def underscoreOK (s : List Char) : Bool :=
  let s1 := match s with
    | c :: rest => if c = '-' ∨ c = '+' then rest else s
    | [] => s
  match s1 with
  | '0' :: c2 :: rest =>
      if lowerC c2 = 'b' ∨ lowerC c2 = 'o' ∨ lowerC c2 = 'x' then
        underscoreLoop (lowerC c2 = 'x') '0' rest
      else underscoreLoop false '^' s1
  | _ => underscoreLoop false '^' s1

/-- strconv.ParseUint (bitSize fixed at 64 for the multiply loop, as the
source always passes 64).  Base 0 auto-detects 0b/0o/0x/legacy-octal. -/
def goParseUint (s0 : List Char) (base bitSize : Nat) : Except NumErr Nat :=
  if s0 = [] then .error .bad
  else
    let p : Option (Nat × List Char) :=
      if 2 ≤ base ∧ base ≤ 36 then some (base, s0)
      else if base = 0 then
        match s0 with
        | '0' :: c2 :: c3 :: rest =>
            if lowerC c2 = 'b' then some (2, c3 :: rest)
            else if lowerC c2 = 'o' then some (8, c3 :: rest)
            else if lowerC c2 = 'x' then some (16, c3 :: rest)
            else some (8, c2 :: c3 :: rest)
        | '0' :: rest => some (8, rest)
        | _ => some (10, s0)
      else none
    match p with
    | none => .error .bad
    | some (b, digits) =>
        let maxVal := 2 ^ bitSize - 1
        match parseDigits (base = 0) b maxVal digits 0 with
        | .error e => .error e
        | .ok n =>
            if base = 0 ∧ digits.contains '_' then
              if underscoreOK s0 then .ok n else .error .bad
            else .ok n

/-- strconv.ParseInt: strip an optional sign, ParseUint the rest with an
unsigned 64-bit cap, then check against the signed cutoff. -/
def goParseInt (s0 : List Char) (base bitSize : Nat) : Except NumErr Int :=
  if s0 = [] then .error .bad
  else
    let neg : Bool := match s0 with
      | '-' :: _ => true
      | _ => false
    let s : List Char := match s0 with
      | '+' :: rest => rest
      | '-' :: rest => rest
      | _ => s0
    match goParseUint s base 64 with
    | .error .bad => .error .bad
    | .error .outOfRange => .error .outOfRange
    | .ok un =>
        let cutoff : Nat := 2 ^ (bitSize - 1)
        if ¬neg ∧ cutoff ≤ un then .error .outOfRange
        else if neg ∧ cutoff < un then .error .outOfRange
        else .ok (if neg then -(un : Int) else (un : Int))

/-! ## Contexts, invocations, and the external world -/

/-- Go context values as built by this code: context.Background(),
context.WithTimeout(parent, d), or an arbitrary caller-supplied context. -/
inductive GoContext where
  | background : GoContext
  | withTimeout (parent : GoContext) (d : Nat) : GoContext
  | other (id : Nat) : GoContext
  deriving DecidableEq, Repr

/-- One external process invocation: `ctx?` is `none` for exec.Command
(getCmdOutput) and `some ctx` for exec.CommandContext (getCmdOutputCtx). -/
structure Invocation where
  ctx? : Option GoContext
  prog : String
  args : List String
  deriving DecidableEq, Repr

/-- The external world: a stateful oracle answering each invocation with
combined output bytes and an optional error. -/
structure World (S : Type) where
  respond : S → Invocation → List Char × Option GoError × S

/-- Result of an effectful operation: the Go return value(s), the world
state afterwards, and the invocations performed (in order). -/
abbrev Eff (S A : Type) := A × S × List Invocation

/-- getCmdOutput: exec.Command (no context), CombinedOutput. -/
def getCmdOutput {S : Type} (w : World S) (s : S) (name : String) (args : List String) :
    Eff S (List Char × Option GoError) :=
  let inv : Invocation := ⟨none, name, args⟩
  let (out, e, s1) := w.respond s inv
  ((out, e), s1, [inv])

/-- getCmdOutputCtx: exec.CommandContext under the given context. -/
def getCmdOutputCtx {S : Type} (w : World S) (ctx : GoContext) (s : S)
    (name : String) (args : List String) : Eff S (List Char × Option GoError) :=
  let inv : Invocation := ⟨some ctx, name, args⟩
  let (out, e, s1) := w.respond s inv
  ((out, e), s1, [inv])

/-! ## The drive handle and its data -/

structure LtoNoRewindTapeDrive where
  DeviceFile : String
  SgLogs : String
  SgReadAttr : String
  Mt : String
  deriving DecidableEq, Repr

structure LtoTapeCapacityLog where
  MainPartitionRemaining : Int
  AlternatePartitionRemaining : Int
  MainPartitionMax : Int
  AlternatePartitionMax : Int
  deriving DecidableEq, Repr

/-- A magic number as "Capacity Unknown". -/
def UnknownCapacity : Int := -1

/-- In MAM attribute data, 0 means data cartridge. -/
def ReadAttrMediumTypeDataCartridge : Nat := 0

/-! ## The field extractors -/

/-- extractSgIntVal: split on the last colon, take the first whitespace
field of the remainder, drop commas, ParseInt. -/
def extractSgIntVal (s : List Char) (base : Nat) : Int × Option GoError :=
  let s1 := trimSpace s
  let splited := splitCh ':' s1
  let valStr := trimSpace (splited.getLastD [])
  if valStr.length = 0 then (-1, some ErrSomeSgRelatedFieldsMissing)
  else
    let tok := (goFields valStr).headD []
    let tok := tok.filter (fun c => c ≠ ',')
    match goParseInt tok base 64 with
    | .error e => (-1, some (.numErr e))
    | .ok v => (v, none)

/-- extractSgStrVal: split on the last colon (at least one colon
required), return the first whitespace field of the remainder. -/
def extractSgStrVal (s : List Char) : List Char × Option GoError :=
  let s1 := trimSpace s
  let splited := splitCh ':' s1
  if splited.length < 2 then ([], some ErrSomeSgRelatedFieldsMissing)
  else
    let valStr := trimSpace (splited.getLastD [])
    if valStr.length = 0 ∨ ((goFields valStr).headD []).length = 0 then
      ([], some ErrSomeSgRelatedFieldsMissing)
    else ((goFields valStr).headD [], none)

/-- extractMtUintVal: like extractSgIntVal but split on the last '=' and
ParseUint. -/
def extractMtUintVal (s : List Char) (base : Nat) : Nat × Option GoError :=
  let s1 := trimSpace s
  let splited := splitCh '=' s1
  let valStr := trimSpace (splited.getLastD [])
  if valStr.length = 0 then (0, some ErrSomeMtRelatedFieldsMissing)
  else
    let tok := (goFields valStr).headD []
    let tok := tok.filter (fun c => c ≠ ',')
    match goParseUint tok base 64 with
    | .error e => (0, some (.numErr e))
    | .ok v => (v, none)

/-! ## Attribute reads and the medium gate -/

/-- ExecSgReadAttr: run sg_read_attr -f <id> <device>, wrap execution
failures, extract the value with the colon-delimited string rule. -/
def ExecSgReadAttr {S : Type} (w : World S) (dev : LtoNoRewindTapeDrive) (s : S)
    (id : String) : Eff S (List Char × Option GoError) :=
  let ((out, e), s1, t1) := getCmdOutput w s dev.SgReadAttr ["-f", id, dev.DeviceFile]
  match e with
  | some err => (([], some (.wrap ErrSgReadAttrExecFailed err)), s1, t1)
  | none => (extractSgStrVal out, s1, t1)

/-- HasDataCartridge: read attribute 0x0408, ParseInt base 0, compare
with the data-cartridge code 0. -/
def HasDataCartridge {S : Type} (w : World S) (dev : LtoNoRewindTapeDrive) (s : S) :
    Eff S (Bool × Option GoError) :=
  let ((attrStr, e), s1, t1) := ExecSgReadAttr w dev s "0x0408"
  match e with
  | some err => ((false, some err), s1, t1)
  | none =>
      match goParseInt attrStr 0 64 with
      | .error pe => ((false, some (.wrap ErrCanNotParseSgReadAttrOutput (.numErr pe))), s1, t1)
      | .ok v => ((v = (ReadAttrMediumTypeDataCartridge : Int), none), s1, t1)

/-- TryReadAttr: HasDataCartridge for its error only. -/
def TryReadAttr {S : Type} (w : World S) (dev : LtoNoRewindTapeDrive) (s : S) :
    Eff S (Option GoError) :=
  let ((_, e), s1, t1) := HasDataCartridge w dev s
  (e, s1, t1)

/-- GetMediumSN: gate on TryReadAttr, then read attribute 0x0401; both
failures are wrapped as "can not get medium serial number". -/
def GetMediumSN {S : Type} (w : World S) (dev : LtoNoRewindTapeDrive) (s : S) :
    Eff S (List Char × Option GoError) :=
  let (e, s1, t1) := TryReadAttr w dev s
  match e with
  | some err => (([], some (.wrap ErrCanNotGetMediumSN err)), s1, t1)
  | none =>
      let ((sn, e2), s2, t2) := ExecSgReadAttr w dev s1 "0x0401"
      match e2 with
      | some err => (([], some (.wrap ErrCanNotGetMediumSN err)), s2, t1 ++ t2)
      | none => ((sn, none), s2, t1 ++ t2)

/-! ## mt command execution -/

/-- The mt invocation issued by ExecMtCmdCtx once the gate has passed. -/
def mtInv (dev : LtoNoRewindTapeDrive) (ctx : GoContext) (cmd : String)
    (args : List Nat) : Invocation :=
  ⟨some ctx, dev.Mt, ["-f", dev.DeviceFile, cmd] ++ args.map (fun x => Nat.repr x)⟩

/-- The sg_read_attr invocation performed by the medium-type probe. -/
def probeInv (dev : LtoNoRewindTapeDrive) : Invocation :=
  ⟨none, dev.SgReadAttr, ["-f", "0x0408", dev.DeviceFile]⟩

/-- ExecMtCmdCtx: probe for a data cartridge first; on probe failure wrap
the cause in "no data cartridge or not ready yet", on a non-data medium
return that error bare; only then run mt -f <device> <cmd> <args...>
under the given context. -/
def ExecMtCmdCtx {S : Type} (w : World S) (dev : LtoNoRewindTapeDrive)
    (ctx : GoContext) (s : S) (cmd : String) (args : List Nat) :
    Eff S (Option (List Char) × Option GoError) :=
  let ((hasDC, e), s1, t1) := HasDataCartridge w dev s
  match e with
  | some err => ((none, some (.wrap ErrNoDataCartridgeOrNotReady err)), s1, t1)
  | none =>
      if hasDC then
        let ((out, e2), s2, t2) :=
          getCmdOutputCtx w ctx s1 dev.Mt
            (["-f", dev.DeviceFile, cmd] ++ args.map (fun x => Nat.repr x))
        ((some out, e2), s2, t1 ++ t2)
      else ((none, some ErrNoDataCartridgeOrNotReady), s1, t1)

/-- ExecMtCmd: timeout 0 means a plain background context, otherwise a
fresh WithTimeout context over background. -/
def ExecMtCmd {S : Type} (w : World S) (dev : LtoNoRewindTapeDrive) (s : S)
    (timeout : Nat) (cmd : String) (args : List Nat) :
    Eff S (Option (List Char) × Option GoError) :=
  if timeout = 0 then ExecMtCmdCtx w dev .background s cmd args
  else ExecMtCmdCtx w dev (.withTimeout .background timeout) s cmd args

/-- ChkDevice: mt status with no timeout; failure wrapped as "device
check failed". -/
def ChkDevice {S : Type} (w : World S) (dev : LtoNoRewindTapeDrive) (s : S) :
    Eff S (Option GoError) :=
  let ((_, e), s1, t1) := ExecMtCmd w dev s 0 "status" []
  match e with
  | some err => (some (.wrap ErrDeviceCheckFailed err), s1, t1)
  | none => (none, s1, t1)

/-! ## Positioning primitives -/

def RewindCtx {S : Type} (w : World S) (dev : LtoNoRewindTapeDrive)
    (ctx : GoContext) (s : S) : Eff S (Option GoError) :=
  let ((_, e), s1, t1) := ExecMtCmdCtx w dev ctx s "rewind" []
  (e, s1, t1)

def Rewind {S : Type} (w : World S) (dev : LtoNoRewindTapeDrive)
    (timeout : Nat) (s : S) : Eff S (Option GoError) :=
  let ((_, e), s1, t1) := ExecMtCmd w dev s timeout "rewind" []
  (e, s1, t1)

def FSFCtx {S : Type} (w : World S) (dev : LtoNoRewindTapeDrive)
    (ctx : GoContext) (s : S) (count : Nat) : Eff S (Option GoError) :=
  let ((_, e), s1, t1) := ExecMtCmdCtx w dev ctx s "fsf" [count]
  (e, s1, t1)

def BSFCtx {S : Type} (w : World S) (dev : LtoNoRewindTapeDrive)
    (ctx : GoContext) (s : S) (count : Nat) : Eff S (Option GoError) :=
  let ((_, e), s1, t1) := ExecMtCmdCtx w dev ctx s "bsf" [count]
  (e, s1, t1)

def BSFMCtx {S : Type} (w : World S) (dev : LtoNoRewindTapeDrive)
    (ctx : GoContext) (s : S) (count : Nat) : Eff S (Option GoError) :=
  let ((_, e), s1, t1) := ExecMtCmdCtx w dev ctx s "bsfm" [count]
  (e, s1, t1)

def WEOFCtx {S : Type} (w : World S) (dev : LtoNoRewindTapeDrive)
    (ctx : GoContext) (s : S) : Eff S (Option GoError) :=
  let ((_, e), s1, t1) := ExecMtCmdCtx w dev ctx s "weof" []
  (e, s1, t1)

def EraseCtx {S : Type} (w : World S) (dev : LtoNoRewindTapeDrive)
    (ctx : GoContext) (s : S) : Eff S (Option GoError) :=
  let ((_, e), s1, t1) := ExecMtCmdCtx w dev ctx s "erase" []
  (e, s1, t1)

def EjectCtx {S : Type} (w : World S) (dev : LtoNoRewindTapeDrive)
    (ctx : GoContext) (s : S) : Eff S (Option GoError) :=
  let ((_, e), s1, t1) := ExecMtCmdCtx w dev ctx s "eject" []
  (e, s1, t1)

/-! ## Current file number -/

/-- The "File number" label checked by GetCurFileNumber. -/
def fileNumberLabel : List Char := "File number".toList

/-- The trimmed sub-field before the first comma of a line. -/
def fileNumberField (line : List Char) : List Char :=
  trimSpace ((splitCh ',' line).headD [])

/-- The loop of GetCurFileNumber: the first line whose trimmed first
comma-field starts with "File number" decides the result. -/
def findFileNumberLine : List (List Char) → Option (List Char)
  | [] => none
  | l :: rest =>
      let t := fileNumberField l
      if goStartsWith t fileNumberLabel then some t else findFileNumberLine rest

/-- GetCurFileNumber: mt status (no timeout), then scan the output lines
for a "File number" first-field and extract its value with the
equals-delimited unsigned rule. -/
def GetCurFileNumber {S : Type} (w : World S) (dev : LtoNoRewindTapeDrive) (s : S) :
    Eff S (Nat × Option GoError) :=
  let ((out?, e), s1, t1) := ExecMtCmd w dev s 0 "status" []
  match e with
  | some err => ((0, some (.wrap ErrMtExecFailed err)), s1, t1)
  | none =>
      let outLines := splitCh '\n' (out?.getD [])
      match findFileNumberLine outLines with
      | some trimed =>
          match extractMtUintVal trimed 0 with
          | (val, none) => ((val, none), s1, t1)
          | (_, some err) => ((0, some (.wrap ErrMtOutputParseFailed err)), s1, t1)
      | none => ((0, some ErrSomeMtRelatedFieldsMissing), s1, t1)

/-! ## Navigation -/

def NextFileCtx {S : Type} (w : World S) (dev : LtoNoRewindTapeDrive)
    (ctx : GoContext) (s : S) : Eff S (Option GoError) :=
  FSFCtx w dev ctx s 1

/-- NextFile: timeout 0 means background context, otherwise a fresh
WithTimeout context. -/
def NextFile {S : Type} (w : World S) (dev : LtoNoRewindTapeDrive)
    (timeout : Nat) (s : S) : Eff S (Option GoError) :=
  if timeout = 0 then NextFileCtx w dev .background s
  else NextFileCtx w dev (.withTimeout .background timeout) s

/-- PrevFileCtx: query the current file number (wrapping a query failure);
at file 0 or 1 just rewind; otherwise bsf 1 then bsfm 1, wrapping either
sub-step's failure in "can not go to previous file". -/
def PrevFileCtx {S : Type} (w : World S) (dev : LtoNoRewindTapeDrive)
    (ctx : GoContext) (s : S) : Eff S (Option GoError) :=
  let ((curFileNo, e), s1, t1) := GetCurFileNumber w dev s
  match e with
  | some err => (some (.wrap ErrCanNotGoToPrevFile err), s1, t1)
  | none =>
      if curFileNo = 0 ∨ curFileNo = 1 then
        let (e2, s2, t2) := RewindCtx w dev ctx s1
        (e2, s2, t1 ++ t2)
      else
        let (e2, s2, t2) := BSFCtx w dev ctx s1 1
        match e2 with
        | some err => (some (.wrap ErrCanNotGoToPrevFile err), s2, t1 ++ t2)
        | none =>
            let (e3, s3, t3) := BSFMCtx w dev ctx s2 1
            match e3 with
            | some err => (some (.wrap ErrCanNotGoToPrevFile err), s3, t1 ++ t2 ++ t3)
            | none => (none, s3, t1 ++ t2 ++ t3)

/-- PrevFile: timeout 0 means background context, otherwise a fresh
WithTimeout context. -/
def PrevFile {S : Type} (w : World S) (dev : LtoNoRewindTapeDrive)
    (timeout : Nat) (s : S) : Eff S (Option GoError) :=
  if timeout = 0 then PrevFileCtx w dev .background s
  else PrevFileCtx w dev (.withTimeout .background timeout) s

/-- The stepping loop of CountFiles: repeat NextFileCtx until it fails,
counting successes.  The source loop is unbounded; `fuel` bounds the
iteration here and every theorem supplies enough of it for the
exhaustion branch to be unreachable. -/
def countLoop {S : Type} (w : World S) (dev : LtoNoRewindTapeDrive)
    (ctx : GoContext) : Nat → S → Nat → Eff S (Nat × Option GoError)
  | 0, s, cnt => ((cnt, none), s, [])
  | fuel + 1, s, cnt =>
      let (e, s1, t1) := NextFileCtx w dev ctx s
      match e with
      | some err => ((cnt, some err), s1, t1)
      | none =>
          let (r, s2, t2) := countLoop w dev ctx fuel s1 (cnt + 1)
          (r, s2, t1 ++ t2)

/-- The body of CountFiles, parameterized by the context it threads
through every sub-operation: initial rewind, stepping loop, final rewind,
joined error. -/
def countFilesCtx {S : Type} (w : World S) (dev : LtoNoRewindTapeDrive)
    (fuel : Nat) (ctx : GoContext) (s : S) : Eff S (Nat × Option GoError) :=
  let (e0, s1, t1) := RewindCtx w dev ctx s
  let ((cnt, e), s2, t2) :=
    match e0 with
    | some err => ((0, some err), s1, ([] : List Invocation))
    | none => countLoop w dev ctx fuel s1 0
  let (eR, s3, t3) := RewindCtx w dev ctx s2
  ((cnt, goJoin e eR), s3, t1 ++ t2 ++ t3)

/-- CountFiles: unconditionally creates a WithTimeout context (no special
case for timeout 0) and runs the rewind/step/rewind sequence under it. -/
def CountFiles {S : Type} (w : World S) (dev : LtoNoRewindTapeDrive)
    (fuel : Nat) (timeout : Nat) (s : S) : Eff S (Nat × Option GoError) :=
  countFilesCtx w dev fuel (.withTimeout .background timeout) s

/-! ## Capacity log -/

def lblMainRemaining : List Char := "Main partition remaining capacity".toList
def lblAltRemaining : List Char := "Alternate partition remaining capacity".toList
def lblMainMax : List Char := "Main partition maximum capacity".toList
def lblAltMax : List Char := "Alternate partition maximum capacity".toList

/-- parseSgLogsCapacityLine: numeric extraction in base 0; on failure the
target becomes the unknown sentinel and the cause is wrapped in the
field-specific error. -/
def parseSgLogsCapacityLine (line : List Char) (baseErr : GoError) :
    Int × Option GoError :=
  match extractSgIntVal line 0 with
  | (_, some e) => (UnknownCapacity, some (.wrap baseErr e))
  | (v, none) => (v, none)

/-- One iteration of GetCapacityLog's line loop: trim, match one of the
four label prefixes, parse and store; unmatched lines leave the state
untouched. -/
def capStep (st : LtoTapeCapacityLog × Option GoError) (line : List Char) :
    LtoTapeCapacityLog × Option GoError :=
  if goStartsWith (trimSpace line) lblMainRemaining then
    ({ st.1 with MainPartitionRemaining :=
        (parseSgLogsCapacityLine (trimSpace line) ErrCanNotParseMainPartitionRemaining).1 },
     goJoin st.2 (parseSgLogsCapacityLine (trimSpace line) ErrCanNotParseMainPartitionRemaining).2)
  else if goStartsWith (trimSpace line) lblAltRemaining then
    ({ st.1 with AlternatePartitionRemaining :=
        (parseSgLogsCapacityLine (trimSpace line) ErrCanNotParseAlternatePartitionRemaining).1 },
     goJoin st.2 (parseSgLogsCapacityLine (trimSpace line) ErrCanNotParseAlternatePartitionRemaining).2)
  else if goStartsWith (trimSpace line) lblMainMax then
    ({ st.1 with MainPartitionMax :=
        (parseSgLogsCapacityLine (trimSpace line) ErrCanNotParseMainPartitionMax).1 },
     goJoin st.2 (parseSgLogsCapacityLine (trimSpace line) ErrCanNotParseMainPartitionMax).2)
  else if goStartsWith (trimSpace line) lblAltMax then
    ({ st.1 with AlternatePartitionMax :=
        (parseSgLogsCapacityLine (trimSpace line) ErrCanNotParseAlternatePartitionMax).1 },
     goJoin st.2 (parseSgLogsCapacityLine (trimSpace line) ErrCanNotParseAlternatePartitionMax).2)
  else st

/-- The sg_logs invocation performed by GetCapacityLog. -/
def sgLogsInv (dev : LtoNoRewindTapeDrive) : Invocation :=
  ⟨none, dev.SgLogs, ["-p", "0x31", dev.DeviceFile]⟩

/-- GetCapacityLog: run sg_logs -p 0x31, fold the lines through capStep
starting from an all-sentinel log, then join in the missing-fields error
when any field is still the sentinel. -/
def GetCapacityLog {S : Type} (w : World S) (dev : LtoNoRewindTapeDrive) (s : S) :
    Eff S (LtoTapeCapacityLog × Option GoError) :=
  let capLog0 : LtoTapeCapacityLog := ⟨-1, -1, -1, -1⟩
  let ((out, e), s1, t1) := getCmdOutput w s dev.SgLogs ["-p", "0x31", dev.DeviceFile]
  match e with
  | some err => ((capLog0, goJoin none (some (.wrap ErrSgLogsExecFailed err))), s1, t1)
  | none =>
      let outLines := splitCh '\n' out
      let (capLog, errs) := outLines.foldl capStep (capLog0, none)
      let errs1 :=
        if capLog.AlternatePartitionMax = UnknownCapacity ∨
           capLog.AlternatePartitionRemaining = UnknownCapacity ∨
           capLog.MainPartitionMax = UnknownCapacity ∨
           capLog.MainPartitionRemaining = UnknownCapacity then
          goJoin errs (some (.wrap ErrSomeCapacityLogFieldsMissing ErrSomeSgRelatedFieldsMissing))
        else errs
      ((capLog, errs1), s1, t1)

/-! ## Utility discovery -/

/-- 1 second, in nanoseconds (Go time.Duration). -/
def UtilsDiscoverTimeout : Nat := 1000000000

/-- The loop of utilProbe: a candidate counts as found when its probe run
returns no error or an error whose chain contains an exec.ExitError;
otherwise the next candidate is tried. -/
def utilProbeLoop {S : Type} (w : World S) (ctx : GoContext) (parm : String)
    (onFail : GoError) : List String → S → Eff S (String × Option GoError)
  | [], s => (("", some onFail), s, [])
  | p :: rest, s =>
      let ((_, e), s1, t1) := getCmdOutputCtx w ctx s p [parm]
      match e with
      | none => ((p, none), s1, t1)
      | some err =>
          if isExitError err then ((p, none), s1, t1)
          else
            let (r, s2, t2) := utilProbeLoop w ctx parm onFail rest s1
            (r, s2, t1 ++ t2)

/-- utilProbe: one WithTimeout context over background for the whole
candidate scan. -/
def utilProbe {S : Type} (w : World S) (s : S) (possibleAt : List String)
    (parm : String) (onFail : GoError) : Eff S (String × Option GoError) :=
  utilProbeLoop w (.withTimeout .background UtilsDiscoverTimeout) parm onFail possibleAt s

/-! ## Concrete worlds and inputs used to exercise the model -/

/-- A world that answers invocations in order from a queued script of
(output, error) pairs, failing once the script is exhausted. -/
def scriptWorld : World (List (List Char × Option GoError)) where
  respond := fun s _ =>
    match s with
    | [] => ([], some (.foreign 99), [])
    | (out, e) :: rest => (out, e, rest)

/-- A sample drive handle. -/
def dev0 : LtoNoRewindTapeDrive := ⟨"/dev/nst0", "sg_logs", "sg_read_attr", "mt"⟩

/-- A successful medium-type probe response: the cartridge is a data
cartridge (attribute value 0). -/
def dcYes : List Char × Option GoError := ("Medium type: 0".toList, none)

/-- A cleaning-cartridge probe response (attribute value 1). -/
def dcClean : List Char × Option GoError := ("Medium type: 1".toList, none)

/-- Script for the C4 counterexample: probe OK, then mt status printing
the positioning line of the specification example. -/
def c4Script : List (List Char × Option GoError) :=
  [dcYes, ("ONLINE, File number=3, Block number=0\n".toList, none)]

/-- Script with the real mt-st status shape: the File number field is the
first comma-field of its line. -/
def c4okScript : List (List Char × Option GoError) :=
  [dcYes, ("File number=3, block number=0, partition=0.\n".toList, none)]

/-- Script for the C6 counterexample: a cleaning cartridge is loaded and
a successful mt status response sits queued behind the probe. -/
def c6Script : List (List Char × Option GoError) :=
  [dcClean, ("ONLINE\n".toList, none)]

/-- Script of an entirely successful run (probe then command), repeated
as needed. -/
def okScript : List (List Char × Option GoError) :=
  [dcYes, ([], none)]

/-- Script for a PrevFileCtx run from file number 2 in which bsf and
bsfm both succeed. -/
def prevScript : List (List Char × Option GoError) :=
  [dcYes, ("File number=2, block number=0, partition=0.\n".toList, none),
   dcYes, ([], none), dcYes, ([], none)]

/-- Script for a CountFiles run: rewind OK, two forward steps OK, third
step fails, final rewind OK. -/
def countScript : List (List Char × Option GoError) :=
  [dcYes, ([], none), dcYes, ([], none), dcYes, ([], none),
   dcYes, ([], some (.foreign 3)), dcYes, ([], none)]

/-- Script for utilProbe: the first candidate fails to launch, the
second runs fine. -/
def probeScript : List (List Char × Option GoError) :=
  [([], some (.foreign 1)), ([], none)]

/-- Script for utilProbe: a single candidate that launches but exits
non-zero. -/
def exitScript : List (List Char × Option GoError) :=
  [([], some (.exitErr 2))]

/-- The value of a decimal digit string. -/
def decValue (ds : List Char) : Nat :=
  ds.foldl (fun acc c => 10 * acc + (c.toNat - '0'.toNat)) 0

/-- A well-formed decimal token: nonempty digits with no leading zero
(except the token "0" itself), so that strconv's base-0 auto-detection
reads it as decimal. -/
def DecTok (ds : List Char) : Prop :=
  ds ≠ [] ∧ (∀ c ∈ ds, '0' ≤ c ∧ c ≤ '9') ∧ (ds.headD ' ' ≠ '0' ∨ ds = ['0'])

/-- The composite error joined in by GetCapacityLog when fields are
missing. -/
def capMissingErr : GoError :=
  .wrap ErrSomeCapacityLogFieldsMissing ErrSomeSgRelatedFieldsMissing

/-- The context utilProbe creates for its whole candidate scan. -/
def probeCtx : GoContext := .withTimeout .background UtilsDiscoverTimeout

/-- The state reached after one NextFileCtx call (used to phrase the
CountFiles loop hypotheses). -/
def nextState {S : Type} (w : World S) (dev : LtoNoRewindTapeDrive)
    (ctx : GoContext) (s : S) : S :=
  (NextFileCtx w dev ctx s).2.1

/-- The four capacity-report labels, by index. -/
def capLabel : Nat → List Char
  | 0 => lblMainRemaining
  | 1 => lblAltRemaining
  | 2 => lblMainMax
  | _ => lblAltMax

/-- The field-specific parse error for each capacity field. -/
def capFieldErr : Nat → GoError
  | 0 => ErrCanNotParseMainPartitionRemaining
  | 1 => ErrCanNotParseAlternatePartitionRemaining
  | 2 => ErrCanNotParseMainPartitionMax
  | _ => ErrCanNotParseAlternatePartitionMax

/-- Update the capacity field selected by the index. -/
def capSet (log : LtoTapeCapacityLog) : Nat → Int → LtoTapeCapacityLog
  | 0, v => { log with MainPartitionRemaining := v }
  | 1, v => { log with AlternatePartitionRemaining := v }
  | 2, v => { log with MainPartitionMax := v }
  | _, v => { log with AlternatePartitionMax := v }

/-- The line-by-line fold performed by GetCapacityLog on a successful
sg_logs output. -/
def capFold (out : List Char) : LtoTapeCapacityLog × Option GoError :=
  (splitCh '\n' out).foldl capStep (⟨-1, -1, -1, -1⟩, none)

/-- The incompleteness test of GetCapacityLog: some field is still the
unknown sentinel. -/
def capIncomplete (log : LtoTapeCapacityLog) : Prop :=
  log.AlternatePartitionMax = UnknownCapacity ∨
  log.AlternatePartitionRemaining = UnknownCapacity ∨
  log.MainPartitionMax = UnknownCapacity ∨
  log.MainPartitionRemaining = UnknownCapacity

instance (log : LtoTapeCapacityLog) : Decidable (capIncomplete log) := by
  unfold capIncomplete
  exact inferInstance

/-- The state reached by the initial rewind of CountFiles. -/
def rewState {S : Type} (w : World S) (dev : LtoNoRewindTapeDrive)
    (ctx : GoContext) (s : S) : S :=
  (RewindCtx w dev ctx s).2.1

/-- The state after i successful forward steps. -/
def iterState {S : Type} (w : World S) (dev : LtoNoRewindTapeDrive)
    (ctx : GoContext) (i : Nat) (s : S) : S :=
  (nextState w dev ctx)^[i] s

/-! ## Structural lemmas about the embedding -/

theorem hasDC_trace {S : Type} (w : World S) (dev : LtoNoRewindTapeDrive) (s : S) :
    (HasDataCartridge w dev s).2.2 = [probeInv dev] := by
  simp only [HasDataCartridge, ExecSgReadAttr, getCmdOutput, probeInv]
  rcases h : w.respond s ⟨none, dev.SgReadAttr, ["-f", "0x0408", dev.DeviceFile]⟩
    with ⟨out, e, s1⟩
  simp only [h]
  cases e with
  | some err => rfl
  | none =>
      simp only
      rcases hs : extractSgStrVal out with ⟨v, e2⟩
      simp only [hs]
      cases e2 with
      | some err => rfl
      | none =>
          simp only
          cases goParseInt v 0 64 with
          | error pe => rfl
          | ok n => rfl

theorem execMtCmdCtx_probe_fail {S : Type} {w : World S} {dev : LtoNoRewindTapeDrive}
    {s s1 : S} {b : Bool} {err : GoError} {t1 : List Invocation}
    (ctx : GoContext) (cmd : String) (args : List Nat)
    (h : HasDataCartridge w dev s = ((b, some err), s1, t1)) :
    ExecMtCmdCtx w dev ctx s cmd args =
      ((none, some (.wrap ErrNoDataCartridgeOrNotReady err)), s1, t1) := by
  unfold ExecMtCmdCtx
  rw [h]

theorem execMtCmdCtx_no_dc {S : Type} {w : World S} {dev : LtoNoRewindTapeDrive}
    {s s1 : S} {t1 : List Invocation}
    (ctx : GoContext) (cmd : String) (args : List Nat)
    (h : HasDataCartridge w dev s = ((false, none), s1, t1)) :
    ExecMtCmdCtx w dev ctx s cmd args =
      ((none, some ErrNoDataCartridgeOrNotReady), s1, t1) := by
  unfold ExecMtCmdCtx
  rw [h]
  rfl

theorem execMtCmdCtx_ok {S : Type} {w : World S} {dev : LtoNoRewindTapeDrive}
    {s s1 s2 : S} {t1 : List Invocation} {out : List Char} {e : Option GoError}
    (ctx : GoContext) (cmd : String) (args : List Nat)
    (h : HasDataCartridge w dev s = ((true, none), s1, t1))
    (hr : w.respond s1 (mtInv dev ctx cmd args) = (out, e, s2)) :
    ExecMtCmdCtx w dev ctx s cmd args =
      ((some out, e), s2, t1 ++ [mtInv dev ctx cmd args]) := by
  simp only [mtInv] at hr
  simp only [ExecMtCmdCtx, getCmdOutputCtx, h, hr]
  simp [mtInv]

theorem eff_err_proj {S A : Type} (r : Eff S (A × Option GoError)) :
    (match r with | ((_, e), s1, t1) => (e, s1, t1)) = (r.1.2, r.2) := by
  rcases r with ⟨⟨a, e⟩, s1, t1⟩
  rfl

theorem rewindCtx_eq {S : Type} (w : World S) (dev : LtoNoRewindTapeDrive)
    (ctx : GoContext) (s : S) :
    RewindCtx w dev ctx s =
      ((ExecMtCmdCtx w dev ctx s "rewind" []).1.2, (ExecMtCmdCtx w dev ctx s "rewind" []).2) := by
  unfold RewindCtx
  exact eff_err_proj _

theorem fsfCtx_eq {S : Type} (w : World S) (dev : LtoNoRewindTapeDrive)
    (ctx : GoContext) (s : S) (n : Nat) :
    FSFCtx w dev ctx s n =
      ((ExecMtCmdCtx w dev ctx s "fsf" [n]).1.2, (ExecMtCmdCtx w dev ctx s "fsf" [n]).2) := by
  unfold FSFCtx
  exact eff_err_proj _

theorem bsfCtx_eq {S : Type} (w : World S) (dev : LtoNoRewindTapeDrive)
    (ctx : GoContext) (s : S) (n : Nat) :
    BSFCtx w dev ctx s n =
      ((ExecMtCmdCtx w dev ctx s "bsf" [n]).1.2, (ExecMtCmdCtx w dev ctx s "bsf" [n]).2) := by
  unfold BSFCtx
  exact eff_err_proj _

theorem bsfmCtx_eq {S : Type} (w : World S) (dev : LtoNoRewindTapeDrive)
    (ctx : GoContext) (s : S) (n : Nat) :
    BSFMCtx w dev ctx s n =
      ((ExecMtCmdCtx w dev ctx s "bsfm" [n]).1.2, (ExecMtCmdCtx w dev ctx s "bsfm" [n]).2) := by
  unfold BSFMCtx
  exact eff_err_proj _

theorem weofCtx_eq {S : Type} (w : World S) (dev : LtoNoRewindTapeDrive)
    (ctx : GoContext) (s : S) :
    WEOFCtx w dev ctx s =
      ((ExecMtCmdCtx w dev ctx s "weof" []).1.2, (ExecMtCmdCtx w dev ctx s "weof" []).2) := by
  unfold WEOFCtx
  exact eff_err_proj _

theorem eraseCtx_eq {S : Type} (w : World S) (dev : LtoNoRewindTapeDrive)
    (ctx : GoContext) (s : S) :
    EraseCtx w dev ctx s =
      ((ExecMtCmdCtx w dev ctx s "erase" []).1.2, (ExecMtCmdCtx w dev ctx s "erase" []).2) := by
  unfold EraseCtx
  exact eff_err_proj _

theorem ejectCtx_eq {S : Type} (w : World S) (dev : LtoNoRewindTapeDrive)
    (ctx : GoContext) (s : S) :
    EjectCtx w dev ctx s =
      ((ExecMtCmdCtx w dev ctx s "eject" []).1.2, (ExecMtCmdCtx w dev ctx s "eject" []).2) := by
  unfold EjectCtx
  exact eff_err_proj _

/-- The trace of ExecMtCmdCtx is the probe alone, or the probe followed
by the mt invocation. -/
theorem execMtCmdCtx_trace {S : Type} (w : World S) (dev : LtoNoRewindTapeDrive)
    (ctx : GoContext) (s : S) (cmd : String) (args : List Nat) :
    (ExecMtCmdCtx w dev ctx s cmd args).2.2 = [probeInv dev] ∨
    (ExecMtCmdCtx w dev ctx s cmd args).2.2 = [probeInv dev, mtInv dev ctx cmd args] := by
  rcases h : HasDataCartridge w dev s with ⟨⟨b, e⟩, s1, t1⟩
  have ht : t1 = [probeInv dev] := by
    have h2 := hasDC_trace w dev s
    rw [h] at h2
    exact h2
  cases e with
  | some err =>
      left
      rw [execMtCmdCtx_probe_fail ctx cmd args h]
      exact ht
  | none =>
      cases b with
      | false =>
          left
          rw [execMtCmdCtx_no_dc ctx cmd args h]
          exact ht
      | true =>
          right
          rcases hr : w.respond s1 (mtInv dev ctx cmd args) with ⟨out, e2, s2⟩
          rw [execMtCmdCtx_ok ctx cmd args h hr]
          rw [ht]
          rfl

/-- Every invocation of ExecMtCmdCtx is the probe or the mt command. -/
theorem mem_trace_execMtCmdCtx {S : Type} {w : World S} {dev : LtoNoRewindTapeDrive}
    {ctx : GoContext} {s : S} {cmd : String} {args : List Nat} {inv : Invocation}
    (hm : inv ∈ (ExecMtCmdCtx w dev ctx s cmd args).2.2) :
    inv = probeInv dev ∨ inv = mtInv dev ctx cmd args := by
  rcases execMtCmdCtx_trace w dev ctx s cmd args with h | h <;> rw [h] at hm <;>
    simp at hm <;> tauto

/-- The probe is always the first invocation of ExecMtCmdCtx. -/
theorem execMtCmdCtx_probe_first {S : Type} (w : World S) (dev : LtoNoRewindTapeDrive)
    (ctx : GoContext) (s : S) (cmd : String) (args : List Nat) :
    (ExecMtCmdCtx w dev ctx s cmd args).2.2.head? = some (probeInv dev) := by
  rcases execMtCmdCtx_trace w dev ctx s cmd args with h | h <;> rw [h] <;> rfl

/-- ExecMtCmd with timeout 0 is ExecMtCmdCtx under background. -/
theorem execMtCmd_zero {S : Type} (w : World S) (dev : LtoNoRewindTapeDrive)
    (s : S) (cmd : String) (args : List Nat) :
    ExecMtCmd w dev s 0 cmd args = ExecMtCmdCtx w dev .background s cmd args := rfl

/-- ExecMtCmd with a nonzero timeout is ExecMtCmdCtx under a fresh
WithTimeout context. -/
theorem execMtCmd_pos {S : Type} (w : World S) (dev : LtoNoRewindTapeDrive)
    (s : S) (t : Nat) (ht : t ≠ 0) (cmd : String) (args : List Nat) :
    ExecMtCmd w dev s t cmd args =
      ExecMtCmdCtx w dev (.withTimeout .background t) s cmd args := by
  unfold ExecMtCmd
  rw [if_neg ht]

/-! ### GetCurFileNumber case equations -/

theorem getCurFileNumber_exec_fail {S : Type} {w : World S} {dev : LtoNoRewindTapeDrive}
    {s s1 : S} {o : Option (List Char)} {err : GoError} {t1 : List Invocation}
    (h : ExecMtCmd w dev s 0 "status" [] = ((o, some err), s1, t1)) :
    GetCurFileNumber w dev s = ((0, some (.wrap ErrMtExecFailed err)), s1, t1) := by
  unfold GetCurFileNumber
  rw [h]

theorem getCurFileNumber_found {S : Type} {w : World S} {dev : LtoNoRewindTapeDrive}
    {s s1 : S} {o : Option (List Char)} {t1 : List Invocation} {fld : List Char} {v : Nat}
    (h : ExecMtCmd w dev s 0 "status" [] = ((o, none), s1, t1))
    (hf : findFileNumberLine (splitCh '\n' (o.getD [])) = some fld)
    (hx : extractMtUintVal fld 0 = (v, none)) :
    GetCurFileNumber w dev s = ((v, none), s1, t1) := by
  unfold GetCurFileNumber
  rw [h]
  simp only [hf, hx]

theorem getCurFileNumber_parse_fail {S : Type} {w : World S} {dev : LtoNoRewindTapeDrive}
    {s s1 : S} {o : Option (List Char)} {t1 : List Invocation} {fld : List Char}
    {v : Nat} {err : GoError}
    (h : ExecMtCmd w dev s 0 "status" [] = ((o, none), s1, t1))
    (hf : findFileNumberLine (splitCh '\n' (o.getD [])) = some fld)
    (hx : extractMtUintVal fld 0 = (v, some err)) :
    GetCurFileNumber w dev s = ((0, some (.wrap ErrMtOutputParseFailed err)), s1, t1) := by
  unfold GetCurFileNumber
  rw [h]
  simp only [hf, hx]

theorem getCurFileNumber_missing {S : Type} {w : World S} {dev : LtoNoRewindTapeDrive}
    {s s1 : S} {o : Option (List Char)} {t1 : List Invocation}
    (h : ExecMtCmd w dev s 0 "status" [] = ((o, none), s1, t1))
    (hf : findFileNumberLine (splitCh '\n' (o.getD [])) = none) :
    GetCurFileNumber w dev s = ((0, some ErrSomeMtRelatedFieldsMissing), s1, t1) := by
  unfold GetCurFileNumber
  rw [h]
  simp only [hf]

/-- The trace of GetCurFileNumber is the trace of its status command. -/
theorem getCurFileNumber_trace {S : Type} (w : World S) (dev : LtoNoRewindTapeDrive)
    (s : S) :
    (GetCurFileNumber w dev s).2.2 = (ExecMtCmd w dev s 0 "status" []).2.2 := by
  rcases h : ExecMtCmd w dev s 0 "status" [] with ⟨⟨o, e⟩, s1, t1⟩
  cases e with
  | some err => rw [getCurFileNumber_exec_fail h]
  | none =>
      rcases hf : findFileNumberLine (splitCh '\n' (o.getD [])) with _ | fld
      · rw [getCurFileNumber_missing h hf]
      · rcases hx : extractMtUintVal fld 0 with ⟨v, e2⟩
        cases e2 with
        | none => rw [getCurFileNumber_found h hf hx]
        | some err => rw [getCurFileNumber_parse_fail h hf hx]

/-! ### PrevFileCtx case equations -/

theorem prevFileCtx_query_fail {S : Type} {w : World S} {dev : LtoNoRewindTapeDrive}
    {s s1 : S} {n : Nat} {err : GoError} {t1 : List Invocation} (ctx : GoContext)
    (h : GetCurFileNumber w dev s = ((n, some err), s1, t1)) :
    PrevFileCtx w dev ctx s = (some (.wrap ErrCanNotGoToPrevFile err), s1, t1) := by
  unfold PrevFileCtx
  rw [h]

theorem prevFileCtx_low {S : Type} {w : World S} {dev : LtoNoRewindTapeDrive}
    {s s1 : S} {n : Nat} {t1 : List Invocation} (ctx : GoContext)
    (h : GetCurFileNumber w dev s = ((n, none), s1, t1))
    (hn : n = 0 ∨ n = 1) :
    PrevFileCtx w dev ctx s =
      ((RewindCtx w dev ctx s1).1, (RewindCtx w dev ctx s1).2.1,
       t1 ++ (RewindCtx w dev ctx s1).2.2) := by
  unfold PrevFileCtx
  rw [h]
  simp only [if_pos hn]

theorem prevFileCtx_bsf_fail {S : Type} {w : World S} {dev : LtoNoRewindTapeDrive}
    {s s1 s2 : S} {n : Nat} {err : GoError} {t1 t2 : List Invocation} (ctx : GoContext)
    (h : GetCurFileNumber w dev s = ((n, none), s1, t1))
    (hn : ¬(n = 0 ∨ n = 1))
    (hb : BSFCtx w dev ctx s1 1 = (some err, s2, t2)) :
    PrevFileCtx w dev ctx s = (some (.wrap ErrCanNotGoToPrevFile err), s2, t1 ++ t2) := by
  unfold PrevFileCtx
  rw [h]
  simp only [if_neg hn, hb]

theorem prevFileCtx_bsfm_fail {S : Type} {w : World S} {dev : LtoNoRewindTapeDrive}
    {s s1 s2 s3 : S} {n : Nat} {err : GoError} {t1 t2 t3 : List Invocation} (ctx : GoContext)
    (h : GetCurFileNumber w dev s = ((n, none), s1, t1))
    (hn : ¬(n = 0 ∨ n = 1))
    (hb : BSFCtx w dev ctx s1 1 = (none, s2, t2))
    (hm : BSFMCtx w dev ctx s2 1 = (some err, s3, t3)) :
    PrevFileCtx w dev ctx s =
      (some (.wrap ErrCanNotGoToPrevFile err), s3, t1 ++ t2 ++ t3) := by
  unfold PrevFileCtx
  rw [h]
  simp only [if_neg hn, hb, hm]

theorem prevFileCtx_ok {S : Type} {w : World S} {dev : LtoNoRewindTapeDrive}
    {s s1 s2 s3 : S} {n : Nat} {t1 t2 t3 : List Invocation} (ctx : GoContext)
    (h : GetCurFileNumber w dev s = ((n, none), s1, t1))
    (hn : ¬(n = 0 ∨ n = 1))
    (hb : BSFCtx w dev ctx s1 1 = (none, s2, t2))
    (hm : BSFMCtx w dev ctx s2 1 = (none, s3, t3)) :
    PrevFileCtx w dev ctx s = (none, s3, t1 ++ t2 ++ t3) := by
  unfold PrevFileCtx
  rw [h]
  simp only [if_neg hn, hb, hm]

/-! ### Trace membership for the composed operations -/

theorem nextFileCtx_eq {S : Type} (w : World S) (dev : LtoNoRewindTapeDrive)
    (ctx : GoContext) (s : S) :
    NextFileCtx w dev ctx s = FSFCtx w dev ctx s 1 := rfl

theorem mem_trace_rewindCtx {S : Type} {w : World S} {dev : LtoNoRewindTapeDrive}
    {ctx : GoContext} {s : S} {inv : Invocation}
    (hm : inv ∈ (RewindCtx w dev ctx s).2.2) :
    inv = probeInv dev ∨ inv = mtInv dev ctx "rewind" [] := by
  have h2 : (RewindCtx w dev ctx s).2.2 = (ExecMtCmdCtx w dev ctx s "rewind" []).2.2 := by
    rw [rewindCtx_eq]
  rw [h2] at hm
  exact mem_trace_execMtCmdCtx hm

theorem mem_trace_nextFileCtx {S : Type} {w : World S} {dev : LtoNoRewindTapeDrive}
    {ctx : GoContext} {s : S} {inv : Invocation}
    (hm : inv ∈ (NextFileCtx w dev ctx s).2.2) :
    inv = probeInv dev ∨ inv = mtInv dev ctx "fsf" [1] := by
  have h2 : (NextFileCtx w dev ctx s).2.2 = (ExecMtCmdCtx w dev ctx s "fsf" [1]).2.2 := by
    rw [nextFileCtx_eq, fsfCtx_eq]
  rw [h2] at hm
  exact mem_trace_execMtCmdCtx hm

theorem mem_trace_bsfCtx {S : Type} {w : World S} {dev : LtoNoRewindTapeDrive}
    {ctx : GoContext} {s : S} {n : Nat} {inv : Invocation}
    (hm : inv ∈ (BSFCtx w dev ctx s n).2.2) :
    inv = probeInv dev ∨ inv = mtInv dev ctx "bsf" [n] := by
  have h2 : (BSFCtx w dev ctx s n).2.2 = (ExecMtCmdCtx w dev ctx s "bsf" [n]).2.2 := by
    rw [bsfCtx_eq]
  rw [h2] at hm
  exact mem_trace_execMtCmdCtx hm

theorem mem_trace_bsfmCtx {S : Type} {w : World S} {dev : LtoNoRewindTapeDrive}
    {ctx : GoContext} {s : S} {n : Nat} {inv : Invocation}
    (hm : inv ∈ (BSFMCtx w dev ctx s n).2.2) :
    inv = probeInv dev ∨ inv = mtInv dev ctx "bsfm" [n] := by
  have h2 : (BSFMCtx w dev ctx s n).2.2 = (ExecMtCmdCtx w dev ctx s "bsfm" [n]).2.2 := by
    rw [bsfmCtx_eq]
  rw [h2] at hm
  exact mem_trace_execMtCmdCtx hm

theorem mem_trace_getCurFileNumber {S : Type} {w : World S} {dev : LtoNoRewindTapeDrive}
    {s : S} {inv : Invocation}
    (hm : inv ∈ (GetCurFileNumber w dev s).2.2) :
    inv = probeInv dev ∨ inv = mtInv dev .background "status" [] := by
  rw [getCurFileNumber_trace, execMtCmd_zero] at hm
  exact mem_trace_execMtCmdCtx hm

theorem mem_trace_countLoop {S : Type} {w : World S} {dev : LtoNoRewindTapeDrive}
    {ctx : GoContext} :
    ∀ (fuel : Nat) (s : S) (cnt : Nat) (inv : Invocation),
      inv ∈ (countLoop w dev ctx fuel s cnt).2.2 →
      inv = probeInv dev ∨ inv = mtInv dev ctx "fsf" [1] := by
  intro fuel
  induction fuel with
  | zero =>
      intro s cnt inv hm
      simp [countLoop] at hm
  | succ f ih =>
      intro s cnt inv hm
      unfold countLoop at hm
      rcases hn : NextFileCtx w dev ctx s with ⟨e, s1, t1⟩
      rw [hn] at hm
      have hmem1 : ∀ i ∈ t1, i = probeInv dev ∨ i = mtInv dev ctx "fsf" [1] := by
        intro i hi
        have hx : i ∈ (NextFileCtx w dev ctx s).2.2 := by rw [hn]; exact hi
        exact mem_trace_nextFileCtx hx
      cases e with
      | some err => exact hmem1 inv hm
      | none =>
          simp only at hm
          rcases hc : countLoop w dev ctx f s1 (cnt + 1) with ⟨r, s2, t2⟩
          rw [hc] at hm
          simp only [List.mem_append] at hm
          rcases hm with hm | hm
          · exact hmem1 inv hm
          · have := ih s1 (cnt + 1) inv
            rw [hc] at this
            exact this hm

theorem mem_trace_countFilesCtx {S : Type} {w : World S} {dev : LtoNoRewindTapeDrive}
    {fuel : Nat} {ctx : GoContext} {s : S} {inv : Invocation}
    (hm : inv ∈ (countFilesCtx w dev fuel ctx s).2.2) :
    inv = probeInv dev ∨ inv = mtInv dev ctx "rewind" [] ∨ inv = mtInv dev ctx "fsf" [1] := by
  unfold countFilesCtx at hm
  rcases h0 : RewindCtx w dev ctx s with ⟨e0, s1, t1⟩
  rw [h0] at hm
  have hmem1 : ∀ i ∈ t1, i = probeInv dev ∨ i = mtInv dev ctx "rewind" [] := by
    intro i hi
    have hx : i ∈ (RewindCtx w dev ctx s).2.2 := by rw [h0]; exact hi
    exact mem_trace_rewindCtx hx
  cases e0 with
  | some err =>
      simp only at hm
      rcases hR : RewindCtx w dev ctx s1 with ⟨eR, s3, t3⟩
      rw [hR] at hm
      simp only [List.append_nil, List.nil_append, List.mem_append] at hm
      rcases hm with hm | hm
      · rcases hmem1 inv hm with h | h
        · exact Or.inl h
        · exact Or.inr (Or.inl h)
      · have : inv = probeInv dev ∨ inv = mtInv dev ctx "rewind" [] := by
          have hx : inv ∈ (RewindCtx w dev ctx s1).2.2 := by rw [hR]; exact hm
          exact mem_trace_rewindCtx hx
        rcases this with h | h
        · exact Or.inl h
        · exact Or.inr (Or.inl h)
  | none =>
      simp only at hm
      rcases hc : countLoop w dev ctx fuel s1 0 with ⟨r, s2, t2⟩
      rw [hc] at hm
      rcases hR : RewindCtx w dev ctx s2 with ⟨eR, s3, t3⟩
      rw [hR] at hm
      simp only [List.mem_append] at hm
      rcases hm with (hm | hm) | hm
      · rcases hmem1 inv hm with h | h
        · exact Or.inl h
        · exact Or.inr (Or.inl h)
      · have hx : inv ∈ (countLoop w dev ctx fuel s1 0).2.2 := by rw [hc]; exact hm
        rcases mem_trace_countLoop fuel s1 0 inv hx with h | h
        · exact Or.inl h
        · exact Or.inr (Or.inr h)
      · have : inv = probeInv dev ∨ inv = mtInv dev ctx "rewind" [] := by
          have hx : inv ∈ (RewindCtx w dev ctx s2).2.2 := by rw [hR]; exact hm
          exact mem_trace_rewindCtx hx
        rcases this with h | h
        · exact Or.inl h
        · exact Or.inr (Or.inl h)

/-- The context discipline of countFilesCtx: every context-carrying
invocation carries exactly the context the operation was given. -/
theorem trace_ctx_countFilesCtx {S : Type} {w : World S} {dev : LtoNoRewindTapeDrive}
    {fuel : Nat} {ctx : GoContext} {s : S} {inv : Invocation}
    (hm : inv ∈ (countFilesCtx w dev fuel ctx s).2.2) :
    ∀ c, inv.ctx? = some c → c = ctx := by
  intro c hc
  rcases mem_trace_countFilesCtx hm with h | h | h <;> rw [h] at hc
  · exact absurd hc (by simp [probeInv])
  · simpa [mtInv] using hc.symm
  · simpa [mtInv] using hc.symm

theorem mem_trace_prevFileCtx {S : Type} {w : World S} {dev : LtoNoRewindTapeDrive}
    {ctx : GoContext} {s : S} {inv : Invocation}
    (hm : inv ∈ (PrevFileCtx w dev ctx s).2.2) :
    inv = probeInv dev ∨ inv = mtInv dev .background "status" [] ∨
    inv = mtInv dev ctx "rewind" [] ∨ inv = mtInv dev ctx "bsf" [1] ∨
    inv = mtInv dev ctx "bsfm" [1] := by
  rcases hg : GetCurFileNumber w dev s with ⟨⟨n, e⟩, s1, t1⟩
  have hmem1 : ∀ i ∈ t1, i = probeInv dev ∨ i = mtInv dev .background "status" [] := by
    intro i hi
    have hx : i ∈ (GetCurFileNumber w dev s).2.2 := by rw [hg]; exact hi
    exact mem_trace_getCurFileNumber hx
  cases e with
  | some err =>
      rw [prevFileCtx_query_fail ctx hg] at hm
      rcases hmem1 inv hm with h | h
      · exact Or.inl h
      · exact Or.inr (Or.inl h)
  | none =>
      by_cases hn : n = 0 ∨ n = 1
      · rw [prevFileCtx_low ctx hg hn] at hm
        simp only [List.mem_append] at hm
        rcases hm with hm | hm
        · rcases hmem1 inv hm with h | h
          · exact Or.inl h
          · exact Or.inr (Or.inl h)
        · rcases mem_trace_rewindCtx hm with h | h
          · exact Or.inl h
          · exact Or.inr (Or.inr (Or.inl h))
      · rcases hb : BSFCtx w dev ctx s1 1 with ⟨e2, s2, t2⟩
        have hmem2 : ∀ i ∈ t2, i = probeInv dev ∨ i = mtInv dev ctx "bsf" [1] := by
          intro i hi
          have hx : i ∈ (BSFCtx w dev ctx s1 1).2.2 := by rw [hb]; exact hi
          exact mem_trace_bsfCtx hx
        cases e2 with
        | some err =>
            rw [prevFileCtx_bsf_fail ctx hg hn hb] at hm
            simp only [List.mem_append] at hm
            rcases hm with hm | hm
            · rcases hmem1 inv hm with h | h
              · exact Or.inl h
              · exact Or.inr (Or.inl h)
            · rcases hmem2 inv hm with h | h
              · exact Or.inl h
              · exact Or.inr (Or.inr (Or.inr (Or.inl h)))
        | none =>
            rcases hbm : BSFMCtx w dev ctx s2 1 with ⟨e3, s3, t3⟩
            have hmem3 : ∀ i ∈ t3, i = probeInv dev ∨ i = mtInv dev ctx "bsfm" [1] := by
              intro i hi
              have hx : i ∈ (BSFMCtx w dev ctx s2 1).2.2 := by rw [hbm]; exact hi
              exact mem_trace_bsfmCtx hx
            have hsplit : inv ∈ t1 ++ t2 ++ t3 := by
              cases e3 with
              | some err => rw [prevFileCtx_bsfm_fail ctx hg hn hb hbm] at hm; exact hm
              | none => rw [prevFileCtx_ok ctx hg hn hb hbm] at hm; exact hm
            simp only [List.mem_append] at hsplit
            rcases hsplit with (hm1 | hm2) | hm3
            · rcases hmem1 inv hm1 with h | h
              · exact Or.inl h
              · exact Or.inr (Or.inl h)
            · rcases hmem2 inv hm2 with h | h
              · exact Or.inl h
              · exact Or.inr (Or.inr (Or.inr (Or.inl h)))
            · rcases hmem3 inv hm3 with h | h
              · exact Or.inl h
              · exact Or.inr (Or.inr (Or.inr (Or.inr h)))

/-! ### The CountFiles stepping loop -/

theorem countLoop_spec {S : Type} {w : World S} {dev : LtoNoRewindTapeDrive}
    {ctx : GoContext} {e : GoError} :
    ∀ (K fuel cnt : Nat) (s : S),
      (∀ i, i < K → (NextFileCtx w dev ctx (iterState w dev ctx i s)).1 = none) →
      (NextFileCtx w dev ctx (iterState w dev ctx K s)).1 = some e →
      K < fuel →
      (countLoop w dev ctx fuel s cnt).1 = (cnt + K, some e) ∧
      (countLoop w dev ctx fuel s cnt).2.1 =
        nextState w dev ctx (iterState w dev ctx K s) := by
  intro K
  induction K with
  | zero =>
      intro fuel cnt s _ hfail hf
      match fuel, hf with
      | f + 1, _ =>
        simp only [iterState, Function.iterate_zero_apply] at hfail
        unfold countLoop
        rcases hn : NextFileCtx w dev ctx s with ⟨e1, s1, t1⟩
        have he1 : e1 = some e := by rw [hn] at hfail; exact hfail
        subst he1
        refine ⟨by simp, ?_⟩
        simp only [iterState, Function.iterate_zero_apply, nextState, hn]
  | succ K ih =>
      intro fuel cnt s hsucc hfail hf
      match fuel, hf with
      | f + 1, hf =>
        have hK : K < f := Nat.succ_lt_succ_iff.mp hf
        have h0 : (NextFileCtx w dev ctx s).1 = none := by
          have := hsucc 0 (Nat.succ_pos K)
          simpa [iterState] using this
        unfold countLoop
        rcases hn : NextFileCtx w dev ctx s with ⟨e1, s1, t1⟩
        have he1 : e1 = none := by rw [hn] at h0; exact h0
        subst he1
        have hs1 : s1 = nextState w dev ctx s := by rw [nextState, hn]
        have hsucc1 : ∀ i, i < K →
            (NextFileCtx w dev ctx (iterState w dev ctx i s1)).1 = none := by
          intro i hi
          have := hsucc (i + 1) (Nat.succ_lt_succ hi)
          rw [iterState, Function.iterate_succ_apply] at this
          rw [iterState, hs1]
          exact this
        have hfail1 : (NextFileCtx w dev ctx (iterState w dev ctx K s1)).1 = some e := by
          rw [iterState, Function.iterate_succ_apply] at hfail
          rw [iterState, hs1]
          exact hfail
        rcases ih f (cnt + 1) s1 hsucc1 hfail1 hK with ⟨ih1, ih2⟩
        rcases hc : countLoop w dev ctx f s1 (cnt + 1) with ⟨r, s2, t2⟩
        rw [hc] at ih1 ih2
        simp only [hc]
        constructor
        · show r = (cnt + (K + 1), some e)
          have hr1 : r = (cnt + 1 + K, some e) := by simpa using ih1
          rw [hr1]
          congr 1
          omega
        · show s2 = nextState w dev ctx (iterState w dev ctx (K + 1) s)
          have hr2 : s2 = nextState w dev ctx (iterState w dev ctx K s1) := by
            simpa using ih2
          rw [hr2]
          congr 1
          rw [iterState, iterState, Function.iterate_succ_apply, hs1]

theorem countFilesCtx_count {S : Type} {w : World S} {dev : LtoNoRewindTapeDrive}
    {ctx : GoContext} {K fuel : Nat} {s : S} {eStep : GoError}
    (h0 : (RewindCtx w dev ctx s).1 = none)
    (hsucc : ∀ i, i < K →
      (NextFileCtx w dev ctx (iterState w dev ctx i (rewState w dev ctx s))).1 = none)
    (hfail : (NextFileCtx w dev ctx
      (iterState w dev ctx K (rewState w dev ctx s))).1 = some eStep)
    (hfuel : K < fuel) :
    (countFilesCtx w dev fuel ctx s).1 =
      (K, goJoin (some eStep)
        ((RewindCtx w dev ctx
          (nextState w dev ctx (iterState w dev ctx K (rewState w dev ctx s)))).1)) ∧
    (countFilesCtx w dev fuel ctx s).2.1 =
      (RewindCtx w dev ctx
        (nextState w dev ctx (iterState w dev ctx K (rewState w dev ctx s)))).2.1 := by
  unfold countFilesCtx
  rcases hr : RewindCtx w dev ctx s with ⟨e0, s1, t1⟩
  have he0 : e0 = none := by rw [hr] at h0; exact h0
  subst he0
  have hs1 : s1 = rewState w dev ctx s := by rw [rewState, hr]
  subst hs1
  simp only
  rcases countLoop_spec K fuel 0 (rewState w dev ctx s) hsucc hfail hfuel with ⟨hv, hst⟩
  rcases hc : countLoop w dev ctx fuel (rewState w dev ctx s) 0 with ⟨⟨cnt, e⟩, s2, t2⟩
  rw [hc] at hv hst
  simp only [Prod.mk.injEq] at hv
  obtain ⟨h1, h2⟩ := hv
  simp only at hst
  subst h2
  have hcnt : cnt = K := by omega
  rw [hcnt]
  subst hst
  rcases hfin : RewindCtx w dev ctx
      (nextState w dev ctx (iterState w dev ctx K (rewState w dev ctx s))) with ⟨eR, s3, t3⟩
  simp only [hfin]
  refine ⟨?_, ?_⟩ <;> first | rfl | trivial

/-! ### String-manipulation lemmas -/

theorem splitChAux_ne_nil (c : Char) : ∀ (l acc : List Char), splitChAux c l acc ≠ [] := by
  intro l
  induction l with
  | nil => intro acc; simp [splitChAux]
  | cons x xs ih =>
      intro acc
      unfold splitChAux
      by_cases hx : x = c
      · simp [hx]
      · simpa [hx] using ih (x :: acc)

theorem splitChAux_no_sep (c : Char) : ∀ (l acc : List Char),
    (∀ x ∈ l, x ≠ c) → splitChAux c l acc = [acc.reverse ++ l] := by
  intro l
  induction l with
  | nil => intro acc _; simp [splitChAux]
  | cons x xs ih =>
      intro acc h
      have hx : x ≠ c := h x (by simp)
      unfold splitChAux
      rw [if_neg hx, ih (x :: acc) (fun y hy => h y (by simp [hy]))]
      simp

theorem getLastD_cons_ne (d : List Char) (l : List (List Char)) (hl : l ≠ [])
    (x : List Char) : (x :: l).getLastD d = l.getLastD d := by
  cases l with
  | nil => exact absurd rfl hl
  | cons b l' => rfl

theorem splitChAux_last (c : Char) (ys : List Char) (hys : ∀ x ∈ ys, x ≠ c) :
    ∀ (xs acc : List Char),
      (splitChAux c (xs ++ c :: ys) acc).getLastD [] = ys := by
  intro xs
  induction xs with
  | nil =>
      intro acc
      show (splitChAux c (c :: ys) acc).getLastD [] = ys
      unfold splitChAux
      rw [if_pos rfl]
      rw [getLastD_cons_ne [] _ (splitChAux_ne_nil c ys []) _]
      rw [splitChAux_no_sep c ys [] hys]
      simp
  | cons x xs' ih =>
      intro acc
      show (splitChAux c (x :: (xs' ++ c :: ys)) acc).getLastD [] = ys
      unfold splitChAux
      by_cases hx : x = c
      · rw [if_pos hx]
        rw [getLastD_cons_ne [] _ (splitChAux_ne_nil c (xs' ++ c :: ys) []) _]
        exact ih []
      · rw [if_neg hx]
        exact ih (x :: acc)

/-- The last chunk of a split is the separator-free suffix. -/
theorem splitCh_last (c : Char) (xs ys : List Char) (hys : ∀ x ∈ ys, x ≠ c) :
    (splitCh c (xs ++ c :: ys)).getLastD [] = ys :=
  splitChAux_last c ys hys xs []

/-- Splitting a separator-free list keeps it whole. -/
theorem splitCh_no_sep (c : Char) (l : List Char) (h : ∀ x ∈ l, x ≠ c) :
    splitCh c l = [l] := by
  unfold splitCh
  rw [splitChAux_no_sep c l [] h]
  rfl

theorem goStartsWith_append_self : ∀ (p r : List Char),
    goStartsWith (p ++ r) p = true := by
  intro p
  induction p with
  | nil => intro r; cases r <;> rfl
  | cons x xs ih =>
      intro r
      show (x = x && goStartsWith (xs ++ r) xs) = true
      simp [ih r]

/-- A character in the decimal-digit range is not whitespace. -/
theorem not_goSpace_of_digit {c : Char} (h1 : 48 ≤ c.toNat) (h2 : c.toNat ≤ 57) :
    goSpace c = false := by
  simp only [goSpace, Bool.or_eq_false_iff, decide_eq_false_iff_not]
  refine ⟨⟨⟨⟨⟨⟨⟨?_, ?_⟩, ?_⟩, ?_⟩, ?_⟩, ?_⟩, ?_⟩, ?_⟩ <;>
    intro hc <;> subst hc <;> revert h1 h2 <;> decide

theorem trimSpace_eq_rdrop_drop (l : List Char) :
    trimSpace l = List.rdropWhile goSpace (l.dropWhile goSpace) := rfl

theorem trimSpace_eq_self {l : List Char}
    (h1 : l.dropWhile goSpace = l) (h2 : List.rdropWhile goSpace l = l) :
    trimSpace l = l := by
  rw [trimSpace_eq_rdrop_drop, h1, h2]

theorem rdropWhile_append_right {p : Char → Bool} {l1 l2 : List Char}
    (hne : l2 ≠ []) (h2 : List.rdropWhile p l2 = l2) :
    List.rdropWhile p (l1 ++ l2) = l1 ++ l2 := by
  rw [List.rdropWhile_eq_self_iff] at h2 ⊢
  intro hl
  rw [List.getLast_append' l1 l2 hne]
  exact h2 hne

/-! ### strconv parsing lemmas for decimal tokens -/

theorem dec_foldl_ge : ∀ (ds : List Char) (a : Nat),
    a ≤ ds.foldl (fun acc c => 10 * acc + (c.toNat - '0'.toNat)) a := by
  intro ds
  induction ds with
  | nil => intro a; simp
  | cons c cs ih =>
      intro a
      rw [List.foldl_cons]
      calc a ≤ 10 * a + (c.toNat - '0'.toNat) := by omega
        _ ≤ _ := ih (10 * a + (c.toNat - '0'.toNat))

theorem parseDigits_decimal (b0 : Bool) (maxVal : Nat) :
    ∀ (ds : List Char) (a : Nat),
      (∀ c ∈ ds, '0' ≤ c ∧ c ≤ '9') →
      ds.foldl (fun acc c => 10 * acc + (c.toNat - '0'.toNat)) a ≤ maxVal →
      parseDigits b0 10 maxVal ds a =
        .ok (ds.foldl (fun acc c => 10 * acc + (c.toNat - '0'.toNat)) a) := by
  intro ds
  induction ds with
  | nil => intro a _ _; rfl
  | cons c cs ih =>
      intro a hd hb
      obtain ⟨hc1, hc2⟩ := hd c (by simp)
      have h57 : c.toNat ≤ 57 := hc2
      have h48 : 48 ≤ c.toNat := hc1
      have hzero : '0'.toNat = 48 := rfl
      have hne : ¬(c = '_' ∧ b0 = true) := by
        rintro ⟨hcu, -⟩
        subst hcu
        exact absurd h57 (by decide)
      have hdv : digitVal c = some (c.toNat - '0'.toNat) := by
        unfold digitVal
        rw [if_pos ⟨hc1, hc2⟩]
      rw [List.foldl_cons] at hb ⊢
      unfold parseDigits
      rw [if_neg hne]
      simp only [hdv]
      rw [if_neg (by rw [hzero]; omega : ¬(10 ≤ c.toNat - '0'.toNat))]
      have hstep : a * 10 + (c.toNat - '0'.toNat) =
          10 * a + (c.toNat - '0'.toNat) := by ring
      have hle : 10 * a + (c.toNat - '0'.toNat) ≤ maxVal :=
        le_trans (dec_foldl_ge cs _) hb
      rw [if_neg (by omega : ¬(maxVal < a * 10 + (c.toNat - '0'.toNat)))]
      rw [hstep]
      exact ih _ (fun x hx => hd x (by simp [hx])) hb

theorem contains_underscore_false {ds : List Char}
    (hd : ∀ c ∈ ds, '0' ≤ c ∧ c ≤ '9') : ds.contains '_' = false := by
  induction ds with
  | nil => rfl
  | cons c cs ih =>
      have h57 : c.toNat ≤ 57 := (hd c (by simp)).2
      have hcu : ('_' == c) = false := by
        rw [beq_eq_false_iff_ne]
        rintro h
        rw [← h] at h57
        exact absurd h57 (by decide)
      rw [List.contains_cons, hcu, ih (fun x hx => hd x (by simp [hx]))]
      rfl

theorem goParseUint_decimal (ds : List Char) (h : DecTok ds)
    (hb : decValue ds < 2 ^ 64) : goParseUint ds 0 64 = .ok (decValue ds) := by
  obtain ⟨hne, hdig, hlead⟩ := h
  match ds, hne with
  | c :: ds', _ =>
    by_cases hc0 : c = '0'
    · rcases hlead with hl | hl
      · rw [List.headD_cons] at hl
        exact absurd hc0 hl
      · rw [hl]
        rfl
    · simp only [decValue] at hb ⊢
      unfold goParseUint
      rw [if_neg (by simp : ¬(c :: ds' = []))]
      rw [if_neg (by omega : ¬(2 ≤ (0 : Nat) ∧ (0 : Nat) ≤ 36)), if_pos rfl]
      have hred : (match c :: ds' with
          | '0' :: c2 :: c3 :: rest =>
              if lowerC c2 = 'b' then some (2, c3 :: rest)
              else if lowerC c2 = 'o' then some (8, c3 :: rest)
              else if lowerC c2 = 'x' then some (16, c3 :: rest)
              else some (8, c2 :: c3 :: rest)
          | '0' :: rest => some (8, rest)
          | _ => some (10, c :: ds')
          : Option (Nat × List Char)) = some (10, c :: ds') := by
        split
        · rename_i heq; rw [List.cons.injEq] at heq; exact absurd heq.1 hc0
        · rename_i heq; rw [List.cons.injEq] at heq; exact absurd heq.1 hc0
        · rfl
      rw [hred]
      simp only [decide_True]
      rw [parseDigits_decimal true (2 ^ 64 - 1) (c :: ds') 0 hdig (by omega)]
      simp only
      rw [if_neg]
      · rintro ⟨-, hu⟩
        rw [contains_underscore_false hdig] at hu
        exact Bool.false_ne_true hu

theorem goParseInt_decimal (ds : List Char) (h : DecTok ds)
    (hb : decValue ds < 2 ^ 63) : goParseInt ds 0 64 = .ok ((decValue ds : Int)) := by
  have hne := h.1
  have hdig := h.2.1
  match ds, hne with
  | c :: ds', _ =>
    have hc1 : '0' ≤ c := (hdig c (by simp)).1
    have hc2 : c ≤ '9' := (hdig c (by simp)).2
    have h48 : 48 ≤ c.toNat := hc1
    have h57 : c.toNat ≤ 57 := hc2
    unfold goParseInt
    rw [if_neg (by simp : ¬(c :: ds' = []))]
    have hneg : (match c :: ds' with
        | '-' :: _ => true
        | _ => false) = false := by
      split
      · rename_i heq; rw [List.cons.injEq] at heq
        exfalso
        have : c.toNat = 45 := by rw [heq.1]; rfl
        omega
      · rfl
    have hsign : (match c :: ds' with
        | '+' :: rest => rest
        | '-' :: rest => rest
        | _ => c :: ds') = c :: ds' := by
      split
      · rename_i heq; rw [List.cons.injEq] at heq
        exfalso
        have : c.toNat = 43 := by rw [heq.1]; rfl
        omega
      · rename_i heq; rw [List.cons.injEq] at heq
        exfalso
        have : c.toNat = 45 := by rw [heq.1]; rfl
        omega
      · rfl
    simp only [hneg, hsign]
    rw [goParseUint_decimal (c :: ds') h (by omega)]
    simp only
    rw [if_neg (by simp; omega), if_neg (by simp)]
    simp

/-! ### Field extraction lemmas -/

theorem trimSpace_no_space {l : List Char} (h : ∀ c ∈ l, goSpace c = false) :
    trimSpace l = l := by
  apply trimSpace_eq_self
  · rw [List.dropWhile_eq_self_iff]
    intro hl
    simp only [Bool.not_eq_true]
    exact h _ (List.get_mem l 0 hl)
  · rw [List.rdropWhile_eq_self_iff]
    intro hl
    simp only [Bool.not_eq_true]
    exact h _ (List.getLast_mem hl)

theorem goFieldsAux_first : ∀ (tok r acc : List Char),
    (∀ c ∈ tok, goSpace c = false) →
    (r = [] ∨ goSpace (r.headD 'x') = true) →
    (acc ≠ [] ∨ tok ≠ []) →
    (goFieldsAux (tok ++ r) acc).headD [] = acc.reverse ++ tok := by
  intro tok
  induction tok with
  | nil =>
      intro r acc _ hr hne
      have hacc : acc ≠ [] := by
        rcases hne with h | h
        · exact h
        · exact absurd rfl h
      have haccE : acc.isEmpty = false := by
        rw [List.isEmpty_eq_false]
        exact hacc
      rcases hr with rfl | hsp
      · show (goFieldsAux [] acc).headD [] = acc.reverse ++ []
        unfold goFieldsAux
        rw [haccE]
        simp
      · rcases r with _ | ⟨x, r'⟩
        · show (goFieldsAux [] acc).headD [] = acc.reverse ++ []
          unfold goFieldsAux
          rw [haccE]
          simp
        · rw [List.headD_cons] at hsp
          show (goFieldsAux (x :: r') acc).headD [] = acc.reverse ++ []
          unfold goFieldsAux
          rw [if_pos hsp, haccE]
          simp
  | cons y tok' ih =>
      intro r acc htok hr _
      have hy : goSpace y = false := htok y (by simp)
      show (goFieldsAux (y :: (tok' ++ r)) acc).headD [] = acc.reverse ++ y :: tok'
      unfold goFieldsAux
      rw [if_neg (by simp [hy])]
      rw [ih r (y :: acc) (fun c hc => htok c (by simp [hc])) hr
        (Or.inl (by simp))]
      simp

/-- A decimal-digit character is none of ':', '=', ',', '_', or space. -/
theorem digit_facts {c : Char} (h1 : '0' ≤ c) (h2 : c ≤ '9') :
    c ≠ ':' ∧ c ≠ '=' ∧ (decide (c ≠ ',') = true) ∧ goSpace c = false := by
  have hn1 : 48 ≤ c.toNat := h1
  have hn2 : c.toNat ≤ 57 := h2
  refine ⟨?_, ?_, ?_, not_goSpace_of_digit hn1 hn2⟩
  · rintro rfl
    exact absurd hn2 (by decide)
  · rintro rfl
    exact absurd hn2 (by decide)
  · rw [decide_eq_true_iff]
    rintro rfl
    exact absurd hn1 (by decide)

/-- extractMtUintVal on a field of the shape "File number=<digits>". -/
theorem extractMtUintVal_field (ds : List Char) (h : DecTok ds)
    (hb : decValue ds < 2 ^ 64) :
    extractMtUintVal (fileNumberLabel ++ '=' :: ds) 0 = (decValue ds, none) := by
  have hne := h.1
  have hdig := h.2.1
  have hnospace : ∀ c ∈ ds, goSpace c = false := fun c hc =>
    (digit_facts (hdig c hc).1 (hdig c hc).2).2.2.2
  have htrim : trimSpace (fileNumberLabel ++ '=' :: ds) = fileNumberLabel ++ '=' :: ds := by
    apply trimSpace_eq_self
    · show List.dropWhile goSpace ('F' :: ("ile number".toList ++ '=' :: ds)) = _
      rw [List.dropWhile_cons_of_neg (by decide)]
      rfl
    · have hsplit : fileNumberLabel ++ '=' :: ds = (fileNumberLabel ++ ['=']) ++ ds := by
        simp
      rw [hsplit]
      apply rdropWhile_append_right hne
      rw [List.rdropWhile_eq_self_iff]
      intro hl
      simp only [Bool.not_eq_true]
      exact hnospace _ (List.getLast_mem hl)
  unfold extractMtUintVal
  simp only [htrim]
  rw [splitCh_last '=' fileNumberLabel ds
    (fun x hx => (digit_facts (hdig x hx).1 (hdig x hx).2).2.1)]
  rw [trimSpace_no_space hnospace]
  rw [if_neg (by simp [hne] : ¬ds.length = 0)]
  have hfields : (goFields ds).headD [] = ds := by
    have := goFieldsAux_first ds [] [] hnospace (Or.inl rfl) (Or.inr hne)
    simpa [goFields] using this
  rw [hfields]
  rw [List.filter_eq_self.mpr
    (fun c hc => (digit_facts (hdig c hc).1 (hdig c hc).2).2.2.1)]
  rw [goParseUint_decimal ds h hb]

/-- extractSgIntVal on a line "<pre>:<rest>" whose remainder's first
whitespace field is a well-formed (possibly comma-separated) decimal
token. -/
theorem extractSgIntVal_line (pre rest tok r ds : List Char)
    (htrim : trimSpace (pre ++ ':' :: rest) = pre ++ ':' :: rest)
    (hrest : ∀ x ∈ rest, x ≠ ':')
    (hsplit : trimSpace rest = tok ++ r)
    (htok : ∀ c ∈ tok, goSpace c = false)
    (htokne : tok ≠ [])
    (hr : r = [] ∨ goSpace (r.headD 'x') = true)
    (hfilter : tok.filter (fun c => c ≠ ',') = ds)
    (hds : DecTok ds) (hb : decValue ds < 2 ^ 63) :
    extractSgIntVal (pre ++ ':' :: rest) 0 = ((decValue ds : Int), none) := by
  unfold extractSgIntVal
  simp only [htrim]
  rw [splitCh_last ':' pre rest hrest]
  rw [hsplit]
  rw [if_neg (by simp [htokne] : ¬(tok ++ r).length = 0)]
  rw [show (goFields (tok ++ r)).headD [] = tok by
    simpa [goFields] using goFieldsAux_first tok r [] htok hr (Or.inr htokne)]
  rw [hfilter]
  rw [goParseInt_decimal ds hds hb]

/-! ### capStep and GetCapacityLog lemmas -/

theorem ns_alt_main (rest : List Char) :
    goStartsWith (lblAltRemaining ++ rest) lblMainRemaining = false := rfl

theorem ns_mm_main (rest : List Char) :
    goStartsWith (lblMainMax ++ rest) lblMainRemaining = false := rfl

theorem ns_mm_alt (rest : List Char) :
    goStartsWith (lblMainMax ++ rest) lblAltRemaining = false := rfl

theorem ns_am_main (rest : List Char) :
    goStartsWith (lblAltMax ++ rest) lblMainRemaining = false := rfl

theorem ns_am_alt (rest : List Char) :
    goStartsWith (lblAltMax ++ rest) lblAltRemaining = false := rfl

theorem ns_am_mm (rest : List Char) :
    goStartsWith (lblAltMax ++ rest) lblMainMax = false := rfl

theorem capStep_parse (i : Nat) (hi : i < 4) (rest tok r ds : List Char)
    (log : LtoTapeCapacityLog)
    (htrim : trimSpace (capLabel i ++ ':' :: rest) = capLabel i ++ ':' :: rest)
    (hrest : ∀ x ∈ rest, x ≠ ':')
    (hsplit : trimSpace rest = tok ++ r)
    (htok : ∀ c ∈ tok, goSpace c = false)
    (htokne : tok ≠ [])
    (hr : r = [] ∨ goSpace (r.headD 'x') = true)
    (hfilter : tok.filter (fun c => c ≠ ',') = ds)
    (hds : DecTok ds) (hb : decValue ds < 2 ^ 63) :
    capStep (log, none) (capLabel i ++ ':' :: rest) =
      (capSet log i (decValue ds), none) := by
  have hx := extractSgIntVal_line (capLabel i) rest tok r ds htrim hrest hsplit
    htok htokne hr hfilter hds hb
  interval_cases i
  · simp only [capLabel] at htrim hx ⊢
    unfold capStep
    rw [htrim]
    rw [if_pos (goStartsWith_append_self lblMainRemaining (':' :: rest))]
    unfold parseSgLogsCapacityLine
    simp only [hx, capSet, goJoin]
  · simp only [capLabel] at htrim hx ⊢
    unfold capStep
    rw [htrim]
    rw [if_neg (by rw [ns_alt_main] ; exact Bool.false_ne_true)]
    rw [if_pos (goStartsWith_append_self lblAltRemaining (':' :: rest))]
    unfold parseSgLogsCapacityLine
    simp only [hx, capSet, goJoin]
  · simp only [capLabel] at htrim hx ⊢
    unfold capStep
    rw [htrim]
    rw [if_neg (by rw [ns_mm_main] ; exact Bool.false_ne_true)]
    rw [if_neg (by rw [ns_mm_alt] ; exact Bool.false_ne_true)]
    rw [if_pos (goStartsWith_append_self lblMainMax (':' :: rest))]
    unfold parseSgLogsCapacityLine
    simp only [hx, capSet, goJoin]
  · simp only [capLabel] at htrim hx ⊢
    unfold capStep
    rw [htrim]
    rw [if_neg (by rw [ns_am_main] ; exact Bool.false_ne_true)]
    rw [if_neg (by rw [ns_am_alt] ; exact Bool.false_ne_true)]
    rw [if_neg (by rw [ns_am_mm] ; exact Bool.false_ne_true)]
    rw [if_pos (goStartsWith_append_self lblAltMax (':' :: rest))]
    unfold parseSgLogsCapacityLine
    simp only [hx, capSet, goJoin]

theorem capStep_unmatched (line : List Char) (st : LtoTapeCapacityLog × Option GoError)
    (h : ∀ i, i < 4 → goStartsWith (trimSpace line) (capLabel i) = false) :
    capStep st line = st := by
  have h0 := h 0 (by omega)
  have h1 := h 1 (by omega)
  have h2 := h 2 (by omega)
  have h3 := h 3 (by omega)
  simp only [capLabel] at h0 h1 h2 h3
  unfold capStep
  rw [if_neg (by rw [h0] ; exact Bool.false_ne_true)]
  rw [if_neg (by rw [h1] ; exact Bool.false_ne_true)]
  rw [if_neg (by rw [h2] ; exact Bool.false_ne_true)]
  rw [if_neg (by rw [h3] ; exact Bool.false_ne_true)]

theorem capStep_parse_fail (i : Nat) (hi : i < 4) (line : List Char)
    (log : LtoTapeCapacityLog) (errs : Option GoError) (e : GoError)
    (hpre : goStartsWith (trimSpace line) (capLabel i) = true)
    (hpre2 : ∀ j, j < i → goStartsWith (trimSpace line) (capLabel j) = false)
    (hex : (extractSgIntVal (trimSpace line) 0).2 = some e) :
    capStep (log, errs) line =
      (capSet log i UnknownCapacity,
       goJoin errs (some (.wrap (capFieldErr i) e))) := by
  rcases hval : extractSgIntVal (trimSpace line) 0 with ⟨v, e2⟩
  rw [hval] at hex
  simp only at hex
  subst hex
  interval_cases i
  · simp only [capLabel] at hpre
    unfold capStep
    rw [if_pos hpre]
    unfold parseSgLogsCapacityLine
    simp only [hval, capSet, capFieldErr]
  · have hj0 := hpre2 0 (by omega)
    simp only [capLabel] at hpre hj0
    unfold capStep
    rw [if_neg (by rw [hj0] ; exact Bool.false_ne_true), if_pos hpre]
    unfold parseSgLogsCapacityLine
    simp only [hval, capSet, capFieldErr]
  · have hj0 := hpre2 0 (by omega)
    have hj1 := hpre2 1 (by omega)
    simp only [capLabel] at hpre hj0 hj1
    unfold capStep
    rw [if_neg (by rw [hj0] ; exact Bool.false_ne_true),
      if_neg (by rw [hj1] ; exact Bool.false_ne_true), if_pos hpre]
    unfold parseSgLogsCapacityLine
    simp only [hval, capSet, capFieldErr]
  · have hj0 := hpre2 0 (by omega)
    have hj1 := hpre2 1 (by omega)
    have hj2 := hpre2 2 (by omega)
    simp only [capLabel] at hpre hj0 hj1 hj2
    unfold capStep
    rw [if_neg (by rw [hj0] ; exact Bool.false_ne_true),
      if_neg (by rw [hj1] ; exact Bool.false_ne_true),
      if_neg (by rw [hj2] ; exact Bool.false_ne_true), if_pos hpre]
    unfold parseSgLogsCapacityLine
    simp only [hval, capSet, capFieldErr]

theorem getCapacityLog_success {S : Type} {w : World S} {dev : LtoNoRewindTapeDrive}
    {s s1 : S} {out : List Char}
    (h : w.respond s (sgLogsInv dev) = (out, none, s1)) :
    GetCapacityLog w dev s =
      (((capFold out).1,
        if capIncomplete (capFold out).1 then
          goJoin (capFold out).2 (some capMissingErr)
        else (capFold out).2),
       s1, [sgLogsInv dev]) := by
  unfold GetCapacityLog getCmdOutput
  simp only [sgLogsInv] at h ⊢
  simp only [h]
  rcases hf : (splitCh '\n' out).foldl capStep (⟨-1, -1, -1, -1⟩, none) with ⟨lg, er⟩
  have hcf : capFold out = (lg, er) := by rw [capFold, hf]
  simp only [hf, hcf, capIncomplete, capMissingErr, UnknownCapacity]

theorem getCapacityLog_exec_fail {S : Type} {w : World S} {dev : LtoNoRewindTapeDrive}
    {s s1 : S} {out : List Char} {err : GoError}
    (h : w.respond s (sgLogsInv dev) = (out, some err, s1)) :
    GetCapacityLog w dev s =
      ((⟨-1, -1, -1, -1⟩, some (.join1 (.wrap ErrSgLogsExecFailed err))),
       s1, [sgLogsInv dev]) := by
  unfold GetCapacityLog getCmdOutput
  simp only [sgLogsInv] at h ⊢
  simp only [h]
  rfl

/-- GetCapacityLog performs exactly one invocation: sg_logs itself, with
no medium probe. -/
theorem getCapacityLog_trace {S : Type} (w : World S) (dev : LtoNoRewindTapeDrive)
    (s : S) : (GetCapacityLog w dev s).2.2 = [sgLogsInv dev] := by
  unfold GetCapacityLog getCmdOutput
  simp only [sgLogsInv]
  rcases hr : w.respond s ⟨none, dev.SgLogs, ["-p", "0x31", dev.DeviceFile]⟩
    with ⟨out, e, s1⟩
  simp only [hr]
  cases e with
  | some err => rfl
  | none => simp only

/-- ExecSgReadAttr performs exactly one invocation: sg_read_attr itself. -/
theorem execSgReadAttr_trace {S : Type} (w : World S) (dev : LtoNoRewindTapeDrive)
    (s : S) (id : String) :
    (ExecSgReadAttr w dev s id).2.2 = [⟨none, dev.SgReadAttr, ["-f", id, dev.DeviceFile]⟩] := by
  unfold ExecSgReadAttr getCmdOutput
  rcases hr : w.respond s ⟨none, dev.SgReadAttr, ["-f", id, dev.DeviceFile]⟩
    with ⟨out, e, s1⟩
  simp only [hr]
  cases e with
  | some err => rfl
  | none => simp only

/-- The first invocation of GetMediumSN is the medium-type probe. -/
theorem getMediumSN_probe_first {S : Type} (w : World S) (dev : LtoNoRewindTapeDrive)
    (s : S) : (GetMediumSN w dev s).2.2.head? = some (probeInv dev) := by
  unfold GetMediumSN TryReadAttr
  rcases hd : HasDataCartridge w dev s with ⟨⟨b, e⟩, s1, t1⟩
  have ht : t1 = [probeInv dev] := by
    have h2 := hasDC_trace w dev s
    rw [hd] at h2
    exact h2
  simp only [hd]
  cases e with
  | some err => simp [ht]
  | none =>
      simp only
      rcases ha : ExecSgReadAttr w dev s1 "0x0401" with ⟨⟨sn, e2⟩, s2, t2⟩
      simp only [ha]
      cases e2 with
      | some err => simp [ht]
      | none => simp [ht]

/-! ### The capacity fold never invents the missing-fields error -/

theorem extractSgIntVal_err_shape {l : List Char} {b : Nat} {c : GoError}
    (h : (extractSgIntVal l b).2 = some c) :
    c = ErrSomeSgRelatedFieldsMissing ∨ ∃ ne, c = GoError.numErr ne := by
  unfold extractSgIntVal at h
  simp only [] at h
  split at h
  · left
    simpa using h.symm
  · split at h
    · rename_i e heq
      right
      refine ⟨e, ?_⟩
      simpa using h.symm
    · simp at h

theorem errContains_missing_atomic {c : GoError}
    (h : c = ErrSomeSgRelatedFieldsMissing ∨ ∃ ne, c = GoError.numErr ne) :
    errContains capMissingErr c = false := by
  rcases h with rfl | ⟨ne, rfl⟩
  · rfl
  · cases ne <;> rfl

theorem errContains_missing_wrap_field (i : Nat) (e : GoError)
    (he : errContains capMissingErr e = false) :
    errContains capMissingErr (.wrap (capFieldErr i) e) = false := by
  have hstep : ∀ (a : GoError), a = capFieldErr i →
      errContains capMissingErr (.wrap a e) =
        ((GoError.wrap a e = capMissingErr : Bool) || errContains capMissingErr a
          || errContains capMissingErr e) := by
    intro a _
    rfl
  rw [hstep _ rfl, he]
  rcases i with _ | _ | _ | n <;>
    simp [capFieldErr, capMissingErr, errContains, ErrCanNotParseMainPartitionRemaining,
      ErrCanNotParseAlternatePartitionRemaining, ErrCanNotParseMainPartitionMax,
      ErrCanNotParseAlternatePartitionMax, ErrSomeCapacityLogFieldsMissing,
      ErrSomeSgRelatedFieldsMissing]

theorem errContains_missing_goJoin {a b : Option GoError}
    (ha : ∀ x, a = some x → errContains capMissingErr x = false)
    (hb : ∀ x, b = some x → errContains capMissingErr x = false) :
    ∀ x, goJoin a b = some x → errContains capMissingErr x = false := by
  intro x hx
  rcases a with _ | ea <;> rcases b with _ | eb <;> simp [goJoin] at hx
  · rw [← hx]
    show ((GoError.join1 eb = capMissingErr : Bool) || errContains capMissingErr eb) = false
    rw [hb eb rfl]
    simp [capMissingErr]
  · rw [← hx]
    show ((GoError.join1 ea = capMissingErr : Bool) || errContains capMissingErr ea) = false
    rw [ha ea rfl]
    simp [capMissingErr]
  · rw [← hx]
    show ((GoError.join2 ea eb = capMissingErr : Bool) || errContains capMissingErr ea
      || errContains capMissingErr eb) = false
    rw [ha ea rfl, hb eb rfl]
    simp [capMissingErr]

theorem capStep_no_missing (st : LtoTapeCapacityLog × Option GoError) (line : List Char)
    (h : ∀ x, st.2 = some x → errContains capMissingErr x = false) :
    ∀ x, (capStep st line).2 = some x → errContains capMissingErr x = false := by
  have hpiece : ∀ (i : Nat) (x : GoError),
      (parseSgLogsCapacityLine (trimSpace line) (capFieldErr i)).2 = some x →
      errContains capMissingErr x = false := by
    intro i x hx
    unfold parseSgLogsCapacityLine at hx
    rcases hval : extractSgIntVal (trimSpace line) 0 with ⟨v, e2⟩
    rw [hval] at hx
    cases e2 with
    | none => simp at hx
    | some c =>
        simp only [Option.some.injEq] at hx
        rw [← hx]
        exact errContains_missing_wrap_field i c
          (errContains_missing_atomic (extractSgIntVal_err_shape (by rw [hval])))
  unfold capStep
  split
  · exact errContains_missing_goJoin h (hpiece 0)
  · split
    · exact errContains_missing_goJoin h (hpiece 1)
    · split
      · exact errContains_missing_goJoin h (hpiece 2)
      · split
        · exact errContains_missing_goJoin h (hpiece 3)
        · exact h

theorem capFold_no_missing : ∀ (lines : List (List Char))
    (st : LtoTapeCapacityLog × Option GoError),
    (∀ x, st.2 = some x → errContains capMissingErr x = false) →
    ∀ x, (lines.foldl capStep st).2 = some x → errContains capMissingErr x = false := by
  intro lines
  induction lines with
  | nil => intro st h; exact h
  | cons l ls ih =>
      intro st h
      rw [List.foldl_cons]
      exact ih (capStep st l) (capStep_no_missing st l h)

/-! ## Claim theorems -/

/-- Claim C1: for every drive handle and context, PrevFileCtx first queries the
current file number; if it is 0 or 1 it performs exactly a rewind; otherwise it
performs bsf 1 followed by bsfm 1, and any failure of the file-number query or
of either sub-step is reported as the "can not go to previous file" error
wrapping the underlying cause. -/
theorem claim_C1 {S : Type} (w : World S) (dev : LtoNoRewindTapeDrive)
    (ctx : GoContext) (s : S) :
    (∀ n err s1 t1, GetCurFileNumber w dev s = ((n, some err), s1, t1) →
       PrevFileCtx w dev ctx s = (some (.wrap ErrCanNotGoToPrevFile err), s1, t1))
    ∧ (∀ n s1 t1, GetCurFileNumber w dev s = ((n, none), s1, t1) → n = 0 ∨ n = 1 →
       PrevFileCtx w dev ctx s =
         ((RewindCtx w dev ctx s1).1, (RewindCtx w dev ctx s1).2.1,
          t1 ++ (RewindCtx w dev ctx s1).2.2))
    ∧ (∀ n s1 t1 err s2 t2, GetCurFileNumber w dev s = ((n, none), s1, t1) →
       ¬(n = 0 ∨ n = 1) → BSFCtx w dev ctx s1 1 = (some err, s2, t2) →
       PrevFileCtx w dev ctx s = (some (.wrap ErrCanNotGoToPrevFile err), s2, t1 ++ t2))
    ∧ (∀ n s1 t1 s2 t2 err s3 t3, GetCurFileNumber w dev s = ((n, none), s1, t1) →
       ¬(n = 0 ∨ n = 1) → BSFCtx w dev ctx s1 1 = (none, s2, t2) →
       BSFMCtx w dev ctx s2 1 = (some err, s3, t3) →
       PrevFileCtx w dev ctx s =
         (some (.wrap ErrCanNotGoToPrevFile err), s3, t1 ++ t2 ++ t3))
    ∧ (∀ n s1 t1 s2 t2 s3 t3, GetCurFileNumber w dev s = ((n, none), s1, t1) →
       ¬(n = 0 ∨ n = 1) → BSFCtx w dev ctx s1 1 = (none, s2, t2) →
       BSFMCtx w dev ctx s2 1 = (none, s3, t3) →
       PrevFileCtx w dev ctx s = (none, s3, t1 ++ t2 ++ t3)) :=
  ⟨fun _ _ _ _ h => prevFileCtx_query_fail ctx h,
   fun _ _ _ h hn => prevFileCtx_low ctx h hn,
   fun _ _ _ _ _ _ h hn hb => prevFileCtx_bsf_fail ctx h hn hb,
   fun _ _ _ _ _ _ _ _ h hn hb hm => prevFileCtx_bsfm_fail ctx h hn hb hm,
   fun _ _ _ _ _ _ _ h hn hb hm => prevFileCtx_ok ctx h hn hb hm⟩

/-- Witness for C1: from current file number 2 with both sub-steps succeeding,
the previous-file maneuver completes with no error, having issued status, bsf 1
and bsfm 1 (each behind its medium probe). -/
theorem claim_C1_witness :
    PrevFileCtx scriptWorld dev0 (.other 7) prevScript =
      (none, [],
       [probeInv dev0, mtInv dev0 .background "status" [],
        probeInv dev0, mtInv dev0 (.other 7) "bsf" [1],
        probeInv dev0, mtInv dev0 (.other 7) "bsfm" [1]]) := by
  have h := (claim_C1 scriptWorld dev0 (.other 7) prevScript).2.2.2.2
  exact h 2 [dcYes, ([], none), dcYes, ([], none)]
    [probeInv dev0, mtInv dev0 .background "status" []]
    [dcYes, ([], none)] [probeInv dev0, mtInv dev0 (.other 7) "bsf" [1]]
    [] [probeInv dev0, mtInv dev0 (.other 7) "bsfm" [1]]
    (by decide) (by decide) (by decide) (by decide)

/-- Claim C3: every mt command issued through ExecMtCmdCtx runs the medium-type
probe first; the external positioning command is invoked if and only if the
probe succeeds and reports a data cartridge; otherwise the operation returns
the "no data cartridge or not ready yet" error (wrapping the probe's error when
the probe itself failed) without invoking the positioning command; and every
positioning primitive (rewind, fsf, bsf, bsfm, weof, erase, eject) dispatches
through ExecMtCmdCtx. -/
theorem claim_C3 {S : Type} (w : World S) (dev : LtoNoRewindTapeDrive)
    (ctx : GoContext) (s : S) (cmd : String) (args : List Nat) :
    ((ExecMtCmdCtx w dev ctx s cmd args).2.2.head? = some (probeInv dev))
    ∧ ((HasDataCartridge w dev s).1 = (true, none) ↔
        mtInv dev ctx cmd args ∈ (ExecMtCmdCtx w dev ctx s cmd args).2.2)
    ∧ (∀ b err, (HasDataCartridge w dev s).1 = (b, some err) →
        (ExecMtCmdCtx w dev ctx s cmd args).1.2 =
          some (.wrap ErrNoDataCartridgeOrNotReady err))
    ∧ ((HasDataCartridge w dev s).1 = (false, none) →
        (ExecMtCmdCtx w dev ctx s cmd args).1.2 = some ErrNoDataCartridgeOrNotReady)
    ∧ RewindCtx w dev ctx s =
        ((ExecMtCmdCtx w dev ctx s "rewind" []).1.2, (ExecMtCmdCtx w dev ctx s "rewind" []).2)
    ∧ (∀ n, FSFCtx w dev ctx s n =
        ((ExecMtCmdCtx w dev ctx s "fsf" [n]).1.2, (ExecMtCmdCtx w dev ctx s "fsf" [n]).2))
    ∧ (∀ n, BSFCtx w dev ctx s n =
        ((ExecMtCmdCtx w dev ctx s "bsf" [n]).1.2, (ExecMtCmdCtx w dev ctx s "bsf" [n]).2))
    ∧ (∀ n, BSFMCtx w dev ctx s n =
        ((ExecMtCmdCtx w dev ctx s "bsfm" [n]).1.2, (ExecMtCmdCtx w dev ctx s "bsfm" [n]).2))
    ∧ WEOFCtx w dev ctx s =
        ((ExecMtCmdCtx w dev ctx s "weof" []).1.2, (ExecMtCmdCtx w dev ctx s "weof" []).2)
    ∧ EraseCtx w dev ctx s =
        ((ExecMtCmdCtx w dev ctx s "erase" []).1.2, (ExecMtCmdCtx w dev ctx s "erase" []).2)
    ∧ EjectCtx w dev ctx s =
        ((ExecMtCmdCtx w dev ctx s "eject" []).1.2, (ExecMtCmdCtx w dev ctx s "eject" []).2) := by
  rcases hd : HasDataCartridge w dev s with ⟨⟨b, e⟩, s1, t1⟩
  have ht : t1 = [probeInv dev] := by
    have h2 := hasDC_trace w dev s
    rw [hd] at h2
    exact h2
  refine ⟨execMtCmdCtx_probe_first w dev ctx s cmd args, ?_, ?_, ?_,
    rewindCtx_eq w dev ctx s, fun n => fsfCtx_eq w dev ctx s n,
    fun n => bsfCtx_eq w dev ctx s n, fun n => bsfmCtx_eq w dev ctx s n,
    weofCtx_eq w dev ctx s, eraseCtx_eq w dev ctx s, ejectCtx_eq w dev ctx s⟩
  · constructor
    · intro hbe
      simp only [Prod.mk.injEq] at hbe
      obtain ⟨hb, he⟩ := hbe
      subst hb
      subst he
      rcases hr : w.respond s1 (mtInv dev ctx cmd args) with ⟨out, e2, s2⟩
      rw [execMtCmdCtx_ok ctx cmd args hd hr]
      simp
    · intro hmem
      rcases mem_trace_execMtCmdCtx hmem with hcontra | _
      · exfalso
        have := congrArg Invocation.ctx? hcontra
        simp [mtInv, probeInv] at this
      · cases e with
        | some err =>
            exfalso
            rw [execMtCmdCtx_probe_fail ctx cmd args hd, ht,
              List.mem_singleton] at hmem
            have := congrArg Invocation.ctx? hmem
            simp [mtInv, probeInv] at this
        | none =>
            cases b with
            | true => rfl
            | false =>
                exfalso
                rw [execMtCmdCtx_no_dc ctx cmd args hd, ht,
                  List.mem_singleton] at hmem
                have := congrArg Invocation.ctx? hmem
                simp [mtInv, probeInv] at this
  · intro b0 err hbe
    simp only [Prod.mk.injEq] at hbe
    obtain ⟨hb, he⟩ := hbe
    subst he
    rw [execMtCmdCtx_probe_fail ctx cmd args hd]
  · intro hbe
    simp only [Prod.mk.injEq] at hbe
    obtain ⟨hb, he⟩ := hbe
    subst hb
    subst he
    rw [execMtCmdCtx_no_dc ctx cmd args hd]

/-- Witness for C3: on a cleaning cartridge the eject command is refused with
the bare no-data-cartridge error, and the mt binary is never invoked. -/
theorem claim_C3_witness :
    (ExecMtCmdCtx scriptWorld dev0 .background [dcClean] "eject" []).1.2 =
      some ErrNoDataCartridgeOrNotReady ∧
    ¬(mtInv dev0 .background "eject" [] ∈
      (ExecMtCmdCtx scriptWorld dev0 .background [dcClean] "eject" []).2.2) := by
  have h := claim_C3 scriptWorld dev0 .background [dcClean] "eject" []
  constructor
  · exact h.2.2.2.1 (by decide)
  · intro hmem
    have := h.2.1.mpr hmem
    revert this
    decide

/-- Counterexample for C4: on the positioning-status output
"ONLINE, File number=3, Block number=0" the current-file-number extraction
does NOT return 3: the sub-field before the first comma is "ONLINE", which
does not carry the "File number" prefix, so no line matches and the
missing-field error is returned. -/
theorem claim_C4_counterexample :
    (GetCurFileNumber scriptWorld dev0 c4Script).1 =
      (0, some ErrSomeMtRelatedFieldsMissing) := by decide

/-- Claim C4 (amended): GetCurFileNumber matches a status line only through the
sub-field before the line's first comma: when the mt status command succeeds
and the first line whose trimmed first comma-field starts with "File number"
is exactly "File number=<digits>", the digits' decimal value is returned.  A
line whose first comma-field is "ONLINE" (the specification's example) does
not match, as the counterexample shows. -/
theorem claim_C4_amended {S : Type} (w : World S) (dev : LtoNoRewindTapeDrive)
    (s : S) (o : Option (List Char)) (s1 : S) (t1 : List Invocation) (ds : List Char)
    (hrun : ExecMtCmd w dev s 0 "status" [] = ((o, none), s1, t1))
    (hfind : findFileNumberLine (splitCh '\n' (o.getD [])) =
      some (fileNumberLabel ++ '=' :: ds))
    (hds : DecTok ds) (hbound : decValue ds < 2 ^ 64) :
    GetCurFileNumber w dev s = ((decValue ds, none), s1, t1) :=
  getCurFileNumber_found hrun hfind (extractMtUintVal_field ds hds hbound)

/-- Witness for the amended C4: on the real mt-st status shape, where
"File number=3" is the first comma-field of its line, extraction returns 3. -/
theorem claim_C4_amended_witness :
    GetCurFileNumber scriptWorld dev0 c4okScript =
      ((3, none), [], [probeInv dev0, mtInv dev0 .background "status" []]) := by
  have h := claim_C4_amended scriptWorld dev0 c4okScript
    (some "File number=3, block number=0, partition=0.\n".toList) []
    [probeInv dev0, mtInv dev0 .background "status" []] ['3']
    (by decide) (by decide) ⟨by decide, by decide, by decide⟩ (by decide)
  exact h

/-- Counterexample for C6: with a cleaning cartridge loaded, every external
invocation ChkDevice performs succeeds (the probe runs fine and reports medium
type 1) and mt status is never even invoked, yet ChkDevice fails — so its
success does require a loaded data cartridge, not merely a responding drive. -/
theorem claim_C6_counterexample :
    (ChkDevice scriptWorld dev0 c6Script).1 =
      some (.wrap ErrDeviceCheckFailed ErrNoDataCartridgeOrNotReady) ∧
    (ChkDevice scriptWorld dev0 c6Script).2.2 = [probeInv dev0] := by decide

/-- Claim C6 (amended): ChkDevice succeeds exactly when its mt status
dispatch returns no error, and that requires the medium-type probe to have
succeeded and reported a data cartridge — success is not merely "the drive
responded". -/
theorem claim_C6_amended {S : Type} (w : World S) (dev : LtoNoRewindTapeDrive)
    (s : S) :
    ((ChkDevice w dev s).1 = none ↔ (ExecMtCmd w dev s 0 "status" []).1.2 = none)
    ∧ ((ChkDevice w dev s).1 = none → (HasDataCartridge w dev s).1 = (true, none)) := by
  constructor
  · unfold ChkDevice
    rcases hx : ExecMtCmd w dev s 0 "status" [] with ⟨⟨o, e⟩, s1, t1⟩
    simp only [hx]
    cases e with
    | some err => simp
    | none => simp
  · intro hnone
    rcases hd : HasDataCartridge w dev s with ⟨⟨b, e⟩, s1, t1⟩
    cases e with
    | some err =>
        exfalso
        unfold ChkDevice at hnone
        rw [execMtCmd_zero, execMtCmdCtx_probe_fail .background "status" [] hd] at hnone
        simp at hnone
    | none =>
        cases b with
        | true => rfl
        | false =>
            exfalso
            unfold ChkDevice at hnone
            rw [execMtCmd_zero, execMtCmdCtx_no_dc .background "status" [] hd] at hnone
            simp at hnone

/-- Witness for the amended C6: on a successful run ChkDevice's success
implies the probe reported a data cartridge. -/
theorem claim_C6_amended_witness :
    (HasDataCartridge scriptWorld dev0 okScript).1 = (true, none) :=
  (claim_C6_amended scriptWorld dev0 okScript).2 (by decide)

/-- Counterexample for C7: GetCapacityLog's entire invocation trace is the
single sg_logs call — no medium-type probe precedes the Command Runner
invocation, contradicting "every subsequent operation first confirms a usable
medium is loaded". -/
theorem claim_C7_counterexample :
    (GetCapacityLog scriptWorld dev0 [dcYes]).2.2 = [sgLogsInv dev0] ∧
    sgLogsInv dev0 ≠ probeInv dev0 := by decide

/-- Claim C7 (amended): only the mt-based operations (through ExecMtCmdCtx)
and GetMediumSN confirm a usable medium first; GetCapacityLog and
ExecSgReadAttr invoke the Command Runner directly, their trace being exactly
the one external call with no preceding probe. -/
theorem claim_C7_amended {S : Type} (w : World S) (dev : LtoNoRewindTapeDrive)
    (s : S) (id : String) (ctx : GoContext) (cmd : String) (args : List Nat) :
    (GetCapacityLog w dev s).2.2 = [sgLogsInv dev]
    ∧ (ExecSgReadAttr w dev s id).2.2 =
        [⟨none, dev.SgReadAttr, ["-f", id, dev.DeviceFile]⟩]
    ∧ (ExecMtCmdCtx w dev ctx s cmd args).2.2.head? = some (probeInv dev)
    ∧ (GetMediumSN w dev s).2.2.head? = some (probeInv dev) :=
  ⟨getCapacityLog_trace w dev s, execSgReadAttr_trace w dev s id,
   execMtCmdCtx_probe_first w dev ctx s cmd args, getMediumSN_probe_first w dev s⟩

/-- Counterexample for C8: under a caller-supplied context, ExecMtCmdCtx's
nested medium-type probe is executed with NO context at all (plain
exec.Command), so not every external invocation performed on the operation's
behalf runs under the caller's deadline/cancellation scope. -/
theorem claim_C8_counterexample :
    (ExecMtCmdCtx scriptWorld dev0 (.other 7) okScript "rewind" []).2.2 =
      [probeInv dev0, mtInv dev0 (.other 7) "rewind" []] ∧
    (probeInv dev0).ctx? = none := by decide

/-- Claim C8 (amended): within ExecMtCmdCtx only the mt command itself runs
under the caller-supplied context; the nested medium-type probe runs with no
context, and within PrevFileCtx the file-number query's invocations run under
a background context rather than the caller's, so a context-carrying
invocation of PrevFileCtx carries either the background context or the
caller's. -/
theorem claim_C8_amended {S : Type} (w : World S) (dev : LtoNoRewindTapeDrive)
    (ctx : GoContext) (s : S) (cmd : String) (args : List Nat) :
    (∀ inv ∈ (ExecMtCmdCtx w dev ctx s cmd args).2.2,
       inv.ctx? = none ∨ inv = mtInv dev ctx cmd args)
    ∧ (ExecMtCmdCtx w dev ctx s cmd args).2.2.head? = some (probeInv dev)
    ∧ (probeInv dev).ctx? = none
    ∧ (∀ inv ∈ (PrevFileCtx w dev ctx s).2.2, ∀ c, inv.ctx? = some c →
        c = .background ∨ c = ctx) := by
  refine ⟨?_, execMtCmdCtx_probe_first w dev ctx s cmd args, rfl, ?_⟩
  · intro inv hmem
    rcases mem_trace_execMtCmdCtx hmem with h | h
    · left
      rw [h]
      rfl
    · right
      exact h
  · intro inv hmem c hc
    rcases mem_trace_prevFileCtx hmem with h | h | h | h | h <;> rw [h] at hc
    · exact absurd hc (by simp [probeInv])
    · left
      have : some GoContext.background = some c := hc
      simpa using this.symm
    · right
      have : some ctx = some c := hc
      simpa using this.symm
    · right
      have : some ctx = some c := hc
      simpa using this.symm
    · right
      have : some ctx = some c := hc
      simpa using this.symm

/-- Witness for the amended C8: the probe invocation found in a concrete
ExecMtCmdCtx trace indeed carries no context. -/
theorem claim_C8_witness :
    (probeInv dev0).ctx? = none ∨ probeInv dev0 = mtInv dev0 (.other 3) "status" [] :=
  (claim_C8_amended scriptWorld dev0 (.other 3) okScript "status" []).1
    (probeInv dev0) (by decide)

/-- Claim C10: a timeout of 0 means "no deadline" for ExecMtCmd, NextFile and
PrevFile (they dispatch under a plain background context), whereas CountFiles
does not special-case 0 and threads a zero-duration WithTimeout context
through every context-carrying sub-invocation. -/
theorem claim_C10 {S : Type} (w : World S) (dev : LtoNoRewindTapeDrive)
    (s : S) (fuel t : Nat) (cmd : String) (args : List Nat) :
    ExecMtCmd w dev s 0 cmd args = ExecMtCmdCtx w dev .background s cmd args
    ∧ NextFile w dev 0 s = NextFileCtx w dev .background s
    ∧ PrevFile w dev 0 s = PrevFileCtx w dev .background s
    ∧ (t ≠ 0 → ExecMtCmd w dev s t cmd args =
        ExecMtCmdCtx w dev (.withTimeout .background t) s cmd args)
    ∧ CountFiles w dev fuel 0 s = countFilesCtx w dev fuel (.withTimeout .background 0) s
    ∧ (∀ inv ∈ (CountFiles w dev fuel 0 s).2.2, ∀ c, inv.ctx? = some c →
        c = .withTimeout .background 0) := by
  refine ⟨rfl, rfl, rfl, fun ht => execMtCmd_pos w dev s t ht cmd args, rfl, ?_⟩
  intro inv hmem c hc
  exact trace_ctx_countFilesCtx hmem c hc

/-- Witness for C10: a nonzero timeout dispatches under a fresh WithTimeout
context, exercised at timeout 5. -/
theorem claim_C10_witness :
    ExecMtCmd scriptWorld dev0 okScript 5 "rewind" [] =
      ExecMtCmdCtx scriptWorld dev0 (.withTimeout .background 5) okScript "rewind" [] :=
  (claim_C10 scriptWorld dev0 okScript 1 5 "rewind" []).2.2.2.1 (by decide)

/-- Claim C2: if the initial rewind succeeds, forward stepping succeeds
exactly K times and then fails with eStep, and the fuel bound exceeds K, then
CountFiles returns the count K paired with the join of the stepping error and
the final rewind's error (so K survives even a failed final rewind), its final
state is the final rewind's, and every context-carrying invocation of the
whole run shares the single caller-supplied WithTimeout context. -/
theorem claim_C2 {S : Type} (w : World S) (dev : LtoNoRewindTapeDrive)
    (t fuel K : Nat) (s : S) (eStep : GoError)
    (h0 : (RewindCtx w dev (.withTimeout .background t) s).1 = none)
    (hsucc : ∀ i, i < K → (NextFileCtx w dev (.withTimeout .background t)
      (iterState w dev (.withTimeout .background t) i
        (rewState w dev (.withTimeout .background t) s))).1 = none)
    (hfail : (NextFileCtx w dev (.withTimeout .background t)
      (iterState w dev (.withTimeout .background t) K
        (rewState w dev (.withTimeout .background t) s))).1 = some eStep)
    (hfuel : K < fuel) :
    (CountFiles w dev fuel t s).1 =
      (K, goJoin (some eStep)
        ((RewindCtx w dev (.withTimeout .background t)
          (nextState w dev (.withTimeout .background t)
            (iterState w dev (.withTimeout .background t) K
              (rewState w dev (.withTimeout .background t) s)))).1))
    ∧ (CountFiles w dev fuel t s).2.1 =
        (RewindCtx w dev (.withTimeout .background t)
          (nextState w dev (.withTimeout .background t)
            (iterState w dev (.withTimeout .background t) K
              (rewState w dev (.withTimeout .background t) s)))).2.1
    ∧ (∀ inv ∈ (CountFiles w dev fuel t s).2.2, ∀ c, inv.ctx? = some c →
        c = .withTimeout .background t) := by
  obtain ⟨h1, h2⟩ := countFilesCtx_count h0 hsucc hfail hfuel
  exact ⟨h1, h2, fun inv hm c hc => trace_ctx_countFilesCtx hm c hc⟩

/-- Witness for C2: rewind OK, two steps OK, third step fails, final rewind
OK; the count 2 is returned with the joined stepping error. -/
theorem claim_C2_witness :
    (CountFiles scriptWorld dev0 10 5 countScript).1 =
      (2, some (.join1 (.foreign 3))) := by
  have h := (claim_C2 scriptWorld dev0 5 10 2 countScript (.foreign 3)
    (by decide)
    (by intro i hi; interval_cases i <;> decide)
    (by decide) (by omega)).1
  refine h.trans ?_
  decide

/-! ### utilProbe lemmas -/

theorem utilProbeLoop_cons_ok {S : Type} {w : World S} {ctx : GoContext}
    {parm : String} {onFail : GoError} {p : String} {rest : List String}
    {s s1 : S} {out : List Char}
    (h : w.respond s ⟨some ctx, p, [parm]⟩ = (out, none, s1)) :
    utilProbeLoop w ctx parm onFail (p :: rest) s =
      ((p, none), s1, [⟨some ctx, p, [parm]⟩]) := by
  unfold utilProbeLoop getCmdOutputCtx
  simp only [h]

theorem utilProbeLoop_cons_exit {S : Type} {w : World S} {ctx : GoContext}
    {parm : String} {onFail : GoError} {p : String} {rest : List String}
    {s s1 : S} {out : List Char} {err : GoError}
    (h : w.respond s ⟨some ctx, p, [parm]⟩ = (out, some err, s1))
    (hex : isExitError err = true) :
    utilProbeLoop w ctx parm onFail (p :: rest) s =
      ((p, none), s1, [⟨some ctx, p, [parm]⟩]) := by
  unfold utilProbeLoop getCmdOutputCtx
  simp only [h]
  rw [if_pos hex]

theorem utilProbeLoop_cons_skip {S : Type} {w : World S} {ctx : GoContext}
    {parm : String} {onFail : GoError} {p : String} {rest : List String}
    {s s1 : S} {out : List Char} {err : GoError}
    (h : w.respond s ⟨some ctx, p, [parm]⟩ = (out, some err, s1))
    (hex : isExitError err = false) :
    utilProbeLoop w ctx parm onFail (p :: rest) s =
      ((utilProbeLoop w ctx parm onFail rest s1).1,
       (utilProbeLoop w ctx parm onFail rest s1).2.1,
       ⟨some ctx, p, [parm]⟩ :: (utilProbeLoop w ctx parm onFail rest s1).2.2) := by
  conv_lhs => unfold utilProbeLoop getCmdOutputCtx
  simp only [h]
  rw [if_neg (by rw [hex]; exact Bool.false_ne_true)]
  rcases hl : utilProbeLoop w ctx parm onFail rest s1 with ⟨rr, s2, t2⟩
  simp only [hl]
  rfl

theorem mem_trace_utilProbeLoop {S : Type} {w : World S} {ctx : GoContext}
    {parm : String} {onFail : GoError} :
    ∀ (l : List String) (s : S) (inv : Invocation),
      inv ∈ (utilProbeLoop w ctx parm onFail l s).2.2 →
      ∃ p, inv = ⟨some ctx, p, [parm]⟩ := by
  intro l
  induction l with
  | nil =>
      intro s inv hm
      simp [utilProbeLoop] at hm
  | cons p rest ih =>
      intro s inv hm
      rcases hr : w.respond s ⟨some ctx, p, [parm]⟩ with ⟨out, e, s1⟩
      cases e with
      | none =>
          rw [utilProbeLoop_cons_ok hr, List.mem_singleton] at hm
          exact ⟨p, hm⟩
      | some err =>
          by_cases hex : isExitError err = true
          · rw [utilProbeLoop_cons_exit hr hex, List.mem_singleton] at hm
            exact ⟨p, hm⟩
          · rw [utilProbeLoop_cons_skip hr (Bool.not_eq_true _ |>.mp hex),
              List.mem_cons] at hm
            rcases hm with hm | hm
            · exact ⟨p, hm⟩
            · exact ih s1 inv hm

/-- Claim C9: utilProbe tries candidates in order under one fixed-deadline
context, accepting the first whose probe run returns no error or a
process-produced exit error; a candidate whose launch fails is skipped and
the scan continues from the resulting state; an empty (exhausted) candidate
list yields the utility-specific discovery-failed error. -/
theorem claim_C9 {S : Type} (w : World S) (parm : String) (onFail : GoError) :
    (∀ s : S, utilProbe w s [] parm onFail = (("", some onFail), s, []))
    ∧ (∀ (s : S) (p : String) (rest : List String) (out : List Char) (s1 : S),
        w.respond s ⟨some probeCtx, p, [parm]⟩ = (out, none, s1) →
        utilProbe w s (p :: rest) parm onFail =
          ((p, none), s1, [⟨some probeCtx, p, [parm]⟩]))
    ∧ (∀ (s : S) (p : String) (rest : List String) (out : List Char)
        (err : GoError) (s1 : S),
        w.respond s ⟨some probeCtx, p, [parm]⟩ = (out, some err, s1) →
        isExitError err = true →
        utilProbe w s (p :: rest) parm onFail =
          ((p, none), s1, [⟨some probeCtx, p, [parm]⟩]))
    ∧ (∀ (s : S) (p : String) (rest : List String) (out : List Char)
        (err : GoError) (s1 : S),
        w.respond s ⟨some probeCtx, p, [parm]⟩ = (out, some err, s1) →
        isExitError err = false →
        (utilProbe w s (p :: rest) parm onFail).1 =
          (utilProbe w s1 rest parm onFail).1)
    ∧ (∀ (s : S) (l : List String) (inv : Invocation),
        inv ∈ (utilProbe w s l parm onFail).2.2 →
        ∃ p, inv = ⟨some probeCtx, p, [parm]⟩) := by
  refine ⟨fun s => rfl, ?_, ?_, ?_, ?_⟩
  · intro s p rest out s1 h
    exact utilProbeLoop_cons_ok h
  · intro s p rest out err s1 h hex
    exact utilProbeLoop_cons_exit h hex
  · intro s p rest out err s1 h hex
    rw [show utilProbe w s (p :: rest) parm onFail =
      utilProbeLoop w probeCtx parm onFail (p :: rest) s from rfl,
      utilProbeLoop_cons_skip h hex]
    rfl
  · intro s l inv hm
    exact mem_trace_utilProbeLoop l s inv hm

/-- Witness for C9: a first candidate that fails to launch is skipped and the
second, which runs fine, is returned; a single candidate that exits non-zero
still counts as found. -/
theorem claim_C9_witness :
    (utilProbe scriptWorld probeScript ["/usr/bin/mt", "/bin/mt"] "-h"
      ErrNoMtDiscovered).1 = ("/bin/mt", none) ∧
    (utilProbe scriptWorld exitScript ["mt"] "-h" ErrNoMtDiscovered).1 =
      ("mt", none) := by
  have h9 := claim_C9 scriptWorld "-h" ErrNoMtDiscovered
  constructor
  · rw [h9.2.2.2.1 probeScript "/usr/bin/mt" ["/bin/mt"] [] (.foreign 1)
      [([], none)] (by decide) (by decide)]
    rw [h9.2.1 [([], none)] "/bin/mt" [] [] [] (by decide)]
  · rw [h9.2.2.1 exitScript "mt" [] [] (.exitErr 2) [] (by decide) (by decide)]

theorem errContains_missing_self : errContains capMissingErr capMissingErr = true := by
  decide

/-- Claim C5: for each of the four capacity labels, a line with a well-formed
trailing integer (optionally thousands-separated, optionally followed by
trailing text) parses to that integer with no error; a line with the label but
an empty or non-numeric remainder leaves the field at the unknown sentinel and
joins in the field-specific error wrapping the cause; unmatched lines are
ignored; and on a successful sg_logs run GetCapacityLog returns the
partially-filled log of the line fold together with an error that contains the
missing-fields error exactly when at least one field is still the sentinel. -/
theorem claim_C5 {S : Type} (w : World S) (dev : LtoNoRewindTapeDrive) (s : S) :
    (∀ i, i < 4 → ∀ (rest tok r ds : List Char) (log : LtoTapeCapacityLog),
       trimSpace (capLabel i ++ ':' :: rest) = capLabel i ++ ':' :: rest →
       (∀ x ∈ rest, x ≠ ':') →
       trimSpace rest = tok ++ r →
       (∀ c ∈ tok, goSpace c = false) →
       tok ≠ [] →
       (r = [] ∨ goSpace (r.headD 'x') = true) →
       tok.filter (fun c => c ≠ ',') = ds →
       DecTok ds → decValue ds < 2 ^ 63 →
       capStep (log, none) (capLabel i ++ ':' :: rest) =
         (capSet log i (decValue ds), none))
    ∧ (∀ i, i < 4 → ∀ (line : List Char) (log : LtoTapeCapacityLog)
        (errs : Option GoError) (e : GoError),
       goStartsWith (trimSpace line) (capLabel i) = true →
       (∀ j, j < i → goStartsWith (trimSpace line) (capLabel j) = false) →
       (extractSgIntVal (trimSpace line) 0).2 = some e →
       capStep (log, errs) line =
         (capSet log i UnknownCapacity,
          goJoin errs (some (.wrap (capFieldErr i) e))))
    ∧ (∀ (line : List Char) (st : LtoTapeCapacityLog × Option GoError),
       (∀ i, i < 4 → goStartsWith (trimSpace line) (capLabel i) = false) →
       capStep st line = st)
    ∧ (∀ (s1 : S) (out : List Char),
       w.respond s (sgLogsInv dev) = (out, none, s1) →
       (GetCapacityLog w dev s).1.1 = (capFold out).1
       ∧ ((∃ E, (GetCapacityLog w dev s).1.2 = some E ∧
            errContains capMissingErr E = true)
          ↔ capIncomplete (capFold out).1)) := by
  refine ⟨capStep_parse, capStep_parse_fail, capStep_unmatched, ?_⟩
  intro s1 out h
  rw [getCapacityLog_success h]
  refine ⟨rfl, ?_⟩
  by_cases hinc : capIncomplete (capFold out).1
  · simp only [hinc, iff_true, if_pos hinc]
    rcases hf : (capFold out).2 with _ | er
    · refine ⟨.join1 capMissingErr, rfl, ?_⟩
      show ((GoError.join1 capMissingErr = capMissingErr : Bool) ||
        errContains capMissingErr capMissingErr) = true
      rw [errContains_missing_self]
      simp
    · refine ⟨.join2 er capMissingErr, rfl, ?_⟩
      show ((GoError.join2 er capMissingErr = capMissingErr : Bool) ||
        errContains capMissingErr er || errContains capMissingErr capMissingErr) = true
      rw [errContains_missing_self]
      simp
  · simp only [hinc, iff_false, if_neg hinc]
    rintro ⟨E, hE, hcont⟩
    have hnomiss : ∀ x, (capFold out).2 = some x →
        errContains capMissingErr x = false := by
      intro x hx
      exact capFold_no_missing (splitCh '\n' out) (⟨-1, -1, -1, -1⟩, none)
        (by intro y hy; simp at hy) x hx
    rw [hnomiss E hE] at hcont
    exact Bool.false_ne_true hcont

/-- Witness for C5: the line "Main partition remaining capacity: 1,234 MiB"
parses into the main-remaining field as 1234 with no error. -/
theorem claim_C5_witness :
    capStep (⟨-1, -1, -1, -1⟩, none)
        (capLabel 0 ++ ':' :: " 1,234 MiB".toList) =
      (capSet ⟨-1, -1, -1, -1⟩ 0 (decValue "1234".toList), none) :=
  (claim_C5 scriptWorld dev0 ([] : List (List Char × Option GoError))).1 0 (by omega)
    " 1,234 MiB".toList "1,234".toList " MiB".toList "1234".toList ⟨-1, -1, -1, -1⟩
    (by decide) (by decide) (by decide) (by decide) (by decide) (by decide)
    (by decide) ⟨by decide, by decide, by decide⟩ (by decide)

end Ltouwrap
